import Mathlib

/-!
# Condition variables of the SPL (`modules/spl/spl-condvar.c`)

A shallow embedding of `__cv_init`, `__cv_destroy`, `__cv_wait`,
`__cv_timedwait`, `__cv_signal` and `__cv_broadcast`.

* Part I: the data model (`kcondvar_t`, the wait queue, the kernel state) and
  the host primitives the code calls.
* Part II: every function as a sequential state transformer that records the
  primitives it calls and the state each of them leaves, with the activity of
  other contexts during a suspension supplied by an `Env`.
* Part III: a small-step interleaving semantics (one step per source line that
  touches shared state) over any number of kernel threads.
* Part IV: lemmas. Part V: the properties of the specification, `C1` to `C10`.
-/

namespace SplCondvar

/-! ## Part I: data model and host primitives -/

/-- Constants and macros of the headers that the source file uses but does not
define: the validity tag `CV_MAGIC`, the poison byte `CV_POISON`, the variant
`CV_DEFAULT`, the width of `long` (`clock_t`, `jiffies`), and whether the wake
callback that `DEFINE_WAIT` installs unlinks a woken entry from the queue. -/
structure Host where
  CV_MAGIC : Nat
  CV_POISON : Nat
  CV_DEFAULT : Nat
  BITS_PER_LONG : Nat
  autoremove : Bool
  deriving DecidableEq, Repr

/-- The allocation mode that may sleep (a tag; only equality matters). -/
def KM_SLEEP : Nat := 0

/-- The allocation mode that must not sleep. -/
def KM_NOSLEEP : Nat := 1

/-- The state of a task that is runnable. -/
def TASK_RUNNING : Nat := 0

/-- The state of a task that sleeps until it is woken. -/
def TASK_UNINTERRUPTIBLE : Nat := 2

/-- The flag of an exclusive wait queue entry. -/
def WQ_FLAG_EXCLUSIVE : Nat := 1

/-- An entry of a wait queue (`wait_queue_t`): the task it belongs to (field
`private`, set to `current` by `DEFINE_WAIT`) and its flags. -/
structure wait_queue_t where
  task : Nat
  flags : Nat
  deriving DecidableEq, Repr

/-- The test `flags & WQ_FLAG_EXCLUSIVE`. -/
def wait_queue_t.exclusive (e : wait_queue_t) : Bool := e.flags % 2 == 1

/-- The record `kcondvar_t`. `cv_event` is the list of linked entries of the
wait queue head, `cv_lock` says whether the spin lock is held, `cv_mutex` and
`cv_name` are pointers (`none` is `NULL`; a name buffer is given by its
bytes). -/
structure kcondvar_t where
  cv_magic : Nat
  cv_event : List wait_queue_t
  cv_lock : Bool
  cv_waiters : Int
  cv_mutex : Option Nat
  cv_name : Option (List Nat)
  cv_name_size : Nat
  deriving DecidableEq, Repr

/-- The part of the kernel the condition variable code reads and writes: the
record itself, the owner of every mutex (by address), the scheduling state of
every task, the tick counter, and the sizes of the live `kmem_alloc`
buffers. -/
structure Kernel where
  cv : kcondvar_t
  owner : Nat → Option Nat
  state : Nat → Nat
  jiffies : Int
  live : List Nat

/-- A pointer to a `kcondvar_t`: `NULL`, or the address of the record held in
`Kernel.cv`. -/
inductive CvPtr where
  | null
  | addr
  deriving DecidableEq, Repr

/-- Two's complement reading of an integer as a `long` of `w` bits. -/
def wrapLong (w : Nat) (x : Int) : Int :=
  (x + 2 ^ (w - 1)) % 2 ^ w - 2 ^ (w - 1)

def mutex_owned (k : Kernel) (cur mp : Nat) : Bool := k.owner mp == some cur

def spin_lock (k : Kernel) : Kernel := { k with cv := { k.cv with cv_lock := true } }

def spin_unlock (k : Kernel) : Kernel := { k with cv := { k.cv with cv_lock := false } }

def atomic_inc (k : Kernel) : Kernel :=
  { k with cv := { k.cv with cv_waiters := k.cv.cv_waiters + 1 } }

def atomic_dec (k : Kernel) : Kernel :=
  { k with cv := { k.cv with cv_waiters := k.cv.cv_waiters - 1 } }

def mutex_exit (k : Kernel) (mp : Nat) : Kernel :=
  { k with owner := Function.update k.owner mp none }

/-- The effect of `mutex_enter(mp)` once the mutex has been obtained. -/
def mutex_acquire (k : Kernel) (cur mp : Nat) : Kernel :=
  { k with owner := Function.update k.owner mp (some cur) }

/-- The call `prepare_to_wait_exclusive(&cvp->cv_event, &wait, state)` on the
entry that `DEFINE_WAIT(wait)` has just declared (so it is not linked yet): the
entry gets the exclusive flag and is linked at the tail of the queue, and the
state of the current task is set. -/
def prepare_to_wait_exclusive (k : Kernel) (cur st : Nat) : Kernel :=
  { k with
    cv := { k.cv with cv_event := k.cv.cv_event ++ [⟨cur, WQ_FLAG_EXCLUSIVE⟩] }
    state := Function.update k.state cur st }

/-- The call `finish_wait(&cvp->cv_event, &wait)`: the current task is set
running and its entry is unlinked if it is still linked. -/
def finish_wait (k : Kernel) (cur : Nat) : Kernel :=
  { k with
    cv := { k.cv with cv_event := k.cv.cv_event.filter (fun e => e.task != cur) }
    state := Function.update k.state cur TASK_RUNNING }

/-- The walk of the wait queue that `wake_up` (`nr = 1`) and `wake_up_all`
(`nr = 0`) perform: the wake callback of each entry in turn sets its task
running if it is not; a successful wake-up of an exclusive entry decrements
`nr` and ends the walk when it reaches zero; with `autoremove` a woken entry is
unlinked. The result is the queue, the task states and the tasks woken. -/
def wake_up_common (autoremove : Bool) :
    List wait_queue_t → Int → (Nat → Nat) → List wait_queue_t × (Nat → Nat) × List Nat
  | [], _, st => ([], st, [])
  | e :: q, nr, st =>
    if st e.task != TASK_RUNNING then
      let st1 := Function.update st e.task TASK_RUNNING
      let keep := if autoremove then [] else [e]
      if e.exclusive && nr - 1 == 0 then
        (keep ++ q, st1, [e.task])
      else
        let r := wake_up_common autoremove q (if e.exclusive then nr - 1 else nr) st1
        (keep ++ r.1, r.2.1, e.task :: r.2.2)
    else
      let r := wake_up_common autoremove q nr st
      (e :: r.1, r.2.1, r.2.2)

def wake_up (h : Host) (k : Kernel) : Kernel :=
  let r := wake_up_common h.autoremove k.cv.cv_event 1 k.state
  { k with cv := { k.cv with cv_event := r.1 }, state := r.2.1 }

def wake_up_all (h : Host) (k : Kernel) : Kernel :=
  let r := wake_up_common h.autoremove k.cv.cv_event 0 k.state
  { k with cv := { k.cv with cv_event := r.1 }, state := r.2.1 }

/-- The tasks that `wake_up` sets running in `k`. -/
def wake_up_woken (h : Host) (k : Kernel) : List Nat :=
  (wake_up_common h.autoremove k.cv.cv_event 1 k.state).2.2

/-- The tasks that `wake_up_all` sets running in `k`. -/
def wake_up_all_woken (h : Host) (k : Kernel) : List Nat :=
  (wake_up_common h.autoremove k.cv.cv_event 0 k.state).2.2

/-- The value of an object of `n` bytes all of whose bytes are `c`. -/
def fillBytes : Nat → Nat → Nat
  | 0, _ => 0
  | n + 1, c => c % 256 + 256 * fillBytes n c

/-- The record after `memset(cvp, c, sizeof(*cvp))`: the `int` fields hold the
fill value of four bytes (`cv_waiters` read as a signed `int`), the pointers
hold the fill value of a `long` (not `NULL` unless the byte is zero; the name
pointer then points to no buffer of the model), the bytes of the list head no
longer describe linked entries, and a spin lock word of fill bytes other than
zero reads as held. -/
def memset_kcondvar (h : Host) (c : Nat) : kcondvar_t :=
  { cv_magic := fillBytes 4 c
    cv_event := []
    cv_lock := c % 256 != 0
    cv_waiters := (fillBytes 4 c + 2 ^ 31 : Int) % 2 ^ 32 - 2 ^ 31
    cv_mutex := if c % 256 = 0 then none else some (fillBytes (h.BITS_PER_LONG / 8) c)
    cv_name := if c % 256 = 0 then none else some []
    cv_name_size := fillBytes 4 c }

/-! ## Part II: the functions, one call at a time -/

/-- The calls and the accesses to the binding that a function performs, in
program order. -/
inductive Event where
  | init_waitqueue_head
  | spin_lock_init
  | atomic_set (v : Int)
  | kmem_alloc (size flags : Nat)
  | strcpy
  | kmem_free (size : Nat)
  | memset (c : Nat)
  | spin_lock
  | cv_mutex_store (mp : Nat)
  | cv_mutex_check (mp : Nat)
  | spin_unlock
  | prepare_to_wait_exclusive (state : Nat)
  | atomic_inc
  | mutex_exit (mp : Nat)
  | schedule
  | schedule_timeout (timeout : Int)
  | mutex_enter (mp : Nat)
  | atomic_dec
  | finish_wait
  | wake_up
  | wake_up_all
  deriving DecidableEq, Repr

/-- The state of one call: the kernel state, the events of the call so far,
and the kernel state right after each of these events. -/
structure Run where
  k : Kernel
  trace : List Event
  hist : List Kernel

/-- Perform a primitive and record it, with the state it leaves. -/
def Run.call (r : Run) (e : Event) (f : Kernel → Kernel) : Run :=
  { k := f r.k, trace := r.trace ++ [e], hist := r.hist ++ [f r.k] }

/-- What the rest of the system does while the caller is not running: the
change of the kernel state while it is suspended in `schedule` or
`schedule_timeout`, the change while it waits in `mutex_enter`, and the value
that `schedule_timeout` reports. -/
structure Env where
  suspended : Kernel → Kernel
  contended : Kernel → Kernel
  remaining : Int

/-- A failed `ASSERT` is fatal: the call ends with the line of the
assertion. -/
def ASSERT (line : Nat) (c : Bool) : Except Nat Unit :=
  if c then Except.ok () else Except.error line

/-- Lines 9 to 39. `alloc` is the outcome of `kmem_alloc`. -/
def __cv_init (h : Host) (r : Run) (cvp : CvPtr) (name : Option (List Nat)) (type : Nat)
    (arg : Option Nat) (preempt_count : Nat) (irqs_disabled alloc : Bool) : Except Nat Run :=
  match cvp, name with
  | CvPtr.null, _ => Except.error 15
  | CvPtr.addr, none => Except.error 16
  | CvPtr.addr, some nm => do
    ASSERT 17 (type == h.CV_DEFAULT)
    ASSERT 18 (arg == none)
    let r : Run := { r with k := { r.k with cv := { r.k.cv with cv_magic := h.CV_MAGIC } } }
    let r := r.call Event.init_waitqueue_head
      (fun k => { k with cv := { k.cv with cv_event := [] } })
    let r := r.call Event.spin_lock_init
      (fun k => { k with cv := { k.cv with cv_lock := false } })
    let r := r.call (Event.atomic_set 0)
      (fun k => { k with cv := { k.cv with cv_waiters := 0 } })
    let r : Run := { r with k := { r.k with cv := { r.k.cv with
      cv_mutex := none, cv_name := none, cv_name_size := nm.length + 1 } } }
    let flags := if preempt_count != 0 || irqs_disabled then KM_NOSLEEP else KM_SLEEP
    let r := r.call (Event.kmem_alloc r.k.cv.cv_name_size flags)
      (fun k => if alloc then
          { k with cv := { k.cv with cv_name := some [] }, live := k.cv.cv_name_size :: k.live }
        else k)
    if r.k.cv.cv_name.isSome then
      pure (r.call Event.strcpy
        (fun k => { k with cv := { k.cv with cv_name := some (nm ++ [0]) } }))
    else
      pure r

/-- Lines 42 to 58. -/
def __cv_destroy (h : Host) (r : Run) (cvp : CvPtr) : Except Nat Run :=
  match cvp with
  | CvPtr.null => Except.error 46
  | CvPtr.addr => do
    ASSERT 47 (r.k.cv.cv_magic == h.CV_MAGIC)
    let r := r.call Event.spin_lock spin_lock
    ASSERT 49 (r.k.cv.cv_waiters == 0)
    ASSERT 50 (r.k.cv.cv_event.isEmpty)
    let r := if r.k.cv.cv_name.isSome then
        r.call (Event.kmem_free r.k.cv.cv_name_size)
          (fun k => { k with live := k.live.erase k.cv.cv_name_size })
      else r
    let r := r.call (Event.memset h.CV_POISON)
      (fun k => { k with cv := memset_kcondvar h h.CV_POISON })
    let r := r.call Event.spin_unlock spin_unlock
    pure r

/-- Lines 69 to 87 of `__cv_wait`, for a mutex pointer that is not `NULL`:
everything up to the release of the mutex.
The result is the state in which the caller suspends. -/
def __cv_wait_enter (h : Host) (cur : Nat) (r : Run) (m : Nat) : Except Nat Run := do
    ASSERT 69 (r.k.cv.cv_magic == h.CV_MAGIC)
    let r := r.call Event.spin_lock spin_lock
    ASSERT 71 (mutex_owned r.k cur m)
    let r := if r.k.cv.cv_mutex == none then
        r.call (Event.cv_mutex_store m) (fun k => { k with cv := { k.cv with cv_mutex := some m } })
      else r
    ASSERT 77 (r.k.cv.cv_mutex == some m)
    let r := r.call (Event.cv_mutex_check m) id
    let r := r.call Event.spin_unlock spin_unlock
    let r := r.call (Event.prepare_to_wait_exclusive TASK_UNINTERRUPTIBLE)
      (fun k => prepare_to_wait_exclusive k cur TASK_UNINTERRUPTIBLE)
    let r := r.call Event.atomic_inc atomic_inc
    let r := r.call (Event.mutex_exit m) (fun k => mutex_exit k m)
    pure r

/-- Lines 88 to 93 of `__cv_wait`, from the state in which the caller
suspended. -/
def __cv_wait_resume (env : Env) (cur m : Nat) (r : Run) : Run :=
  let r := r.call Event.schedule env.suspended
  let r := r.call (Event.mutex_enter m) (fun k => mutex_acquire (env.contended k) cur m)
  let r := r.call Event.atomic_dec atomic_dec
  let r := r.call Event.finish_wait (fun k => finish_wait k cur)
  r

/-- Lines 61 to 94. -/
def __cv_wait (h : Host) (env : Env) (cur : Nat) (r : Run) (cvp : CvPtr) (mp : Option Nat) :
    Except Nat Run :=
  match cvp, mp with
  | CvPtr.null, _ => Except.error 67
  | CvPtr.addr, none => Except.error 68
  | CvPtr.addr, some m => do
    let r ← __cv_wait_enter h cur r m
    pure (__cv_wait_resume env cur m r)

/-- Lines 109 to 121 of `__cv_timedwait`, for a mutex pointer that is not
`NULL`: the assertions, the binding and the
computation of `time_left = expire_time - jiffies` in `clock_t`. -/
def __cv_timedwait_check (h : Host) (cur : Nat) (r : Run) (m : Nat)
    (expire_time : Int) : Except Nat (Run × Int) := do
    ASSERT 109 (r.k.cv.cv_magic == h.CV_MAGIC)
    let r := r.call Event.spin_lock spin_lock
    ASSERT 111 (mutex_owned r.k cur m)
    let r := if r.k.cv.cv_mutex == none then
        r.call (Event.cv_mutex_store m) (fun k => { k with cv := { k.cv with cv_mutex := some m } })
      else r
    ASSERT 117 (r.k.cv.cv_mutex == some m)
    let r := r.call (Event.cv_mutex_check m) id
    let r := r.call Event.spin_unlock spin_unlock
    pure (r, wrapLong h.BITS_PER_LONG (expire_time - r.k.jiffies))

/-- Lines 125 to 132 of `__cv_timedwait`. The result is the state in which the
caller suspends. -/
def __cv_timedwait_enter (cur m : Nat) (r : Run) : Run :=
  let r := r.call (Event.prepare_to_wait_exclusive TASK_UNINTERRUPTIBLE)
    (fun k => prepare_to_wait_exclusive k cur TASK_UNINTERRUPTIBLE)
  let r := r.call Event.atomic_inc atomic_inc
  let r := r.call (Event.mutex_exit m) (fun k => mutex_exit k m)
  r

/-- Lines 133 to 139 of `__cv_timedwait`, from the state in which the caller
suspended. -/
def __cv_timedwait_resume (env : Env) (cur m : Nat) (r : Run) (time_left : Int) : Int × Run :=
  let r := r.call (Event.schedule_timeout time_left) env.suspended
  let time_left := env.remaining
  let r := r.call (Event.mutex_enter m) (fun k => mutex_acquire (env.contended k) cur m)
  let r := r.call Event.atomic_dec atomic_dec
  let r := r.call Event.finish_wait (fun k => finish_wait k cur)
  (if time_left > 0 then time_left else -1, r)

/-- Lines 100 to 140. The result is the returned `clock_t` and the final
state. -/
def __cv_timedwait (h : Host) (env : Env) (cur : Nat) (r : Run) (cvp : CvPtr) (mp : Option Nat)
    (expire_time : Int) : Except Nat (Int × Run) :=
  match cvp, mp with
  | CvPtr.null, _ => Except.error 107
  | CvPtr.addr, none => Except.error 108
  | CvPtr.addr, some m => do
    let (r, time_left) ← __cv_timedwait_check h cur r m expire_time
    if time_left <= 0 then
      pure (-1, r)
    else
      pure (__cv_timedwait_resume env cur m (__cv_timedwait_enter cur m r) time_left)

/-- Lines 143 to 158. -/
def __cv_signal (h : Host) (r : Run) (cvp : CvPtr) : Except Nat Run :=
  match cvp with
  | CvPtr.null => Except.error 147
  | CvPtr.addr => do
    ASSERT 148 (r.k.cv.cv_magic == h.CV_MAGIC)
    if r.k.cv.cv_waiters > 0 then
      pure (r.call Event.wake_up (wake_up h))
    else
      pure r

/-- Lines 161 to 174. -/
def __cv_broadcast (h : Host) (r : Run) (cvp : CvPtr) : Except Nat Run :=
  match cvp with
  | CvPtr.null => Except.error 164
  | CvPtr.addr => do
    ASSERT 165 (r.k.cv.cv_magic == h.CV_MAGIC)
    if r.k.cv.cv_waiters > 0 then
      pure (r.call Event.wake_up_all (wake_up_all h))
    else
      pure r

/-- The state after lines 109 to 118 when the assertions hold. -/
def bound (r : Run) (m : Nat) : Run :=
  ((if r.k.cv.cv_mutex == none then
      (r.call Event.spin_lock spin_lock).call (Event.cv_mutex_store m)
        (fun k => { k with cv := { k.cv with cv_mutex := some m } })
    else r.call Event.spin_lock spin_lock).call (Event.cv_mutex_check m) id).call
    Event.spin_unlock spin_unlock

/-- The events of lines 70 to 78 (110 to 118) of an accepted call. -/
def bindingEvents (r : Run) (m : Nat) : List Event :=
  [Event.spin_lock] ++ (if r.k.cv.cv_mutex = none then [Event.cv_mutex_store m] else [])
    ++ [Event.cv_mutex_check m, Event.spin_unlock]

/-- The concrete host used in examples: the constants of `sys/condvar.h` on a
64 bit kernel, with the wake callback of `DEFINE_WAIT` that unlinks. -/
def linux : Host :=
  { CV_MAGIC := 0x346545f4, CV_POISON := 0x95, CV_DEFAULT := 0, BITS_PER_LONG := 64,
    autoremove := true }

/-- The same host with a wake callback that leaves the woken entry linked. -/
def plain : Host := { linux with autoremove := false }

/-- A live condition variable without waiters, bound to no mutex, at tick 200;
task 1 owns the mutex at address 5. -/
def k0 : Kernel :=
  { cv := { cv_magic := 0x346545f4, cv_event := [], cv_lock := false, cv_waiters := 0,
            cv_mutex := none, cv_name := none, cv_name_size := 1 }
    owner := fun a => if a = 5 then some 1 else none
    state := fun _ => TASK_RUNNING
    jiffies := 200
    live := [] }

/-- An environment in which nothing else happens and the timeout elapses. -/
def quiet : Env := { suspended := id, contended := id, remaining := 0 }

/-- An environment in which the caller is woken 20 ticks after it suspended and
`schedule_timeout` reports 30 ticks left. -/
def woken20 : Env :=
  { suspended := fun k => { k with jiffies := k.jiffies + 20 }, contended := id, remaining := 30 }

/-- The other contexts leave the waiter count as it is while the caller of a
wait is not running (each of them has finished the waits it began). -/
def Env.keepsWaiters (env : Env) : Prop :=
  ∀ k, (env.suspended k).cv.cv_waiters = k.cv.cv_waiters
    ∧ (env.contended k).cv.cv_waiters = k.cv.cv_waiters

/-- A live condition variable on which tasks 2 and 3 sleep in a wait. -/
def kTwo : Kernel :=
  { cv := { cv_magic := 0x346545f4,
            cv_event := [⟨2, WQ_FLAG_EXCLUSIVE⟩, ⟨3, WQ_FLAG_EXCLUSIVE⟩],
            cv_lock := false, cv_waiters := 2, cv_mutex := some 5, cv_name := none,
            cv_name_size := 1 }
    owner := fun _ => none
    state := fun i => if i = 2 ∨ i = 3 then TASK_UNINTERRUPTIBLE else TASK_RUNNING
    jiffies := 200
    live := [] }

/-! ## Part III: interleavings -/

/-- The position of a kernel thread: outside the module (`idle`), or about to
execute the named line of `__cv_wait` (`w`), `__cv_timedwait` (`t`),
`__cv_signal` (`s`) or `__cv_broadcast` (`b`). `t133` is the entry of
`schedule_timeout`, which arms its timer; `t133s` is the sleep inside it. -/
inductive PC where
  | idle
  | w70 | w71 | w78 | w80 | w82 | w87 | w88 | w89 | w91 | w92
  | t110 | t111 | t118 | t121 | t125 | t127 | t132 | t133 | t133s | t134 | t136 | t137
  | s154 | s155
  | b170 | b171
  deriving DecidableEq, Repr

/-- The locals of a kernel thread: its position, the arguments `mp` and
`expire_time` of the call in progress, the variable `time_left`, the expiry of
the timer of `schedule_timeout`, and the value its last `__cv_timedwait`
returned. -/
structure Thread where
  pc : PC
  mp : Nat
  expire_time : Int
  time_left : Int
  timer : Int
  ret : Int
  deriving DecidableEq, Repr

/-- What a thread may do next: take or release a mutex in the code around the
calls, begin one of the four calls, or execute the next line of the call it is
in. -/
inductive Action where
  | mutex_enter (m : Nat)
  | mutex_exit (m : Nat)
  | cv_wait (mp : Nat)
  | cv_timedwait (mp : Nat) (expire_time : Int)
  | cv_signal
  | cv_broadcast
  | run
  deriving DecidableEq, Repr

/-- The positions between `atomic_inc` and `atomic_dec`. -/
def PC.counted : PC → Bool
  | PC.w87 | PC.w88 | PC.w89 | PC.w91 => true
  | PC.t132 | PC.t133 | PC.t133s | PC.t134 | PC.t136 => true
  | _ => false

/-- The positions between `prepare_to_wait_exclusive` and `finish_wait`. -/
def PC.registered : PC → Bool
  | PC.w82 | PC.w87 | PC.w88 | PC.w89 | PC.w91 | PC.w92 => true
  | PC.t127 | PC.t132 | PC.t133 | PC.t133s | PC.t134 | PC.t136 | PC.t137 => true
  | _ => false

/-- One step of thread `i` with locals `t` in kernel state `k`: `none` when the
step is not enabled (a lock that is taken, a sleeping task) or when an
assertion fails, which halts the system. -/
def next (h : Host) (i : Nat) (t : Thread) (k : Kernel) : Action → Option (Thread × Kernel)
  | Action.mutex_enter m =>
    if t.pc = PC.idle ∧ k.owner m = none then some (t, mutex_acquire k i m) else none
  | Action.mutex_exit m =>
    if t.pc = PC.idle ∧ k.owner m = some i then some (t, mutex_exit k m) else none
  | Action.cv_wait mp =>
    if t.pc = PC.idle ∧ k.cv.cv_magic = h.CV_MAGIC then
      some ({ t with pc := PC.w70, mp := mp }, k) else none
  | Action.cv_timedwait mp e =>
    if t.pc = PC.idle ∧ k.cv.cv_magic = h.CV_MAGIC then
      some ({ t with pc := PC.t110, mp := mp, expire_time := e }, k) else none
  | Action.cv_signal =>
    if t.pc = PC.idle ∧ k.cv.cv_magic = h.CV_MAGIC then
      some ({ t with pc := PC.s154 }, k) else none
  | Action.cv_broadcast =>
    if t.pc = PC.idle ∧ k.cv.cv_magic = h.CV_MAGIC then
      some ({ t with pc := PC.b170 }, k) else none
  | Action.run =>
    match t.pc with
    | PC.idle => none
    | PC.w70 => if k.cv.cv_lock then none else some ({ t with pc := PC.w71 }, spin_lock k)
    | PC.w71 =>
      if mutex_owned k i t.mp ∧ (k.cv.cv_mutex = none ∨ k.cv.cv_mutex = some t.mp) then
        some ({ t with pc := PC.w78 }, { k with cv := { k.cv with cv_mutex := some t.mp } })
      else none
    | PC.w78 => some ({ t with pc := PC.w80 }, spin_unlock k)
    | PC.w80 =>
      some ({ t with pc := PC.w82 }, prepare_to_wait_exclusive k i TASK_UNINTERRUPTIBLE)
    | PC.w82 => some ({ t with pc := PC.w87 }, atomic_inc k)
    | PC.w87 => some ({ t with pc := PC.w88 }, mutex_exit k t.mp)
    | PC.w88 => if k.state i = TASK_RUNNING then some ({ t with pc := PC.w89 }, k) else none
    | PC.w89 =>
      if k.owner t.mp = none then some ({ t with pc := PC.w91 }, mutex_acquire k i t.mp)
      else none
    | PC.w91 => some ({ t with pc := PC.w92 }, atomic_dec k)
    | PC.w92 => some ({ t with pc := PC.idle }, finish_wait k i)
    | PC.t110 => if k.cv.cv_lock then none else some ({ t with pc := PC.t111 }, spin_lock k)
    | PC.t111 =>
      if mutex_owned k i t.mp ∧ (k.cv.cv_mutex = none ∨ k.cv.cv_mutex = some t.mp) then
        some ({ t with pc := PC.t118 }, { k with cv := { k.cv with cv_mutex := some t.mp } })
      else none
    | PC.t118 => some ({ t with pc := PC.t121 }, spin_unlock k)
    | PC.t121 =>
      let time_left := wrapLong h.BITS_PER_LONG (t.expire_time - k.jiffies)
      if time_left ≤ 0 then some ({ t with pc := PC.idle, time_left := time_left, ret := -1 }, k)
      else some ({ t with pc := PC.t125, time_left := time_left }, k)
    | PC.t125 =>
      some ({ t with pc := PC.t127 }, prepare_to_wait_exclusive k i TASK_UNINTERRUPTIBLE)
    | PC.t127 => some ({ t with pc := PC.t132 }, atomic_inc k)
    | PC.t132 => some ({ t with pc := PC.t133 }, mutex_exit k t.mp)
    | PC.t133 => some ({ t with pc := PC.t133s, timer := t.time_left + k.jiffies }, k)
    | PC.t133s =>
      if k.state i = TASK_RUNNING ∨ t.timer ≤ k.jiffies then
        some ({ t with pc := PC.t134, time_left := max 0 (t.timer - k.jiffies) },
              { k with state := Function.update k.state i TASK_RUNNING })
      else none
    | PC.t134 =>
      if k.owner t.mp = none then some ({ t with pc := PC.t136 }, mutex_acquire k i t.mp)
      else none
    | PC.t136 => some ({ t with pc := PC.t137 }, atomic_dec k)
    | PC.t137 =>
      some ({ t with pc := PC.idle, ret := if t.time_left > 0 then t.time_left else -1 },
            finish_wait k i)
    | PC.s154 =>
      if k.cv.cv_waiters > 0 then some ({ t with pc := PC.s155 }, k)
      else some ({ t with pc := PC.idle }, k)
    | PC.s155 => some ({ t with pc := PC.idle }, wake_up h k)
    | PC.b170 =>
      if k.cv.cv_waiters > 0 then some ({ t with pc := PC.b171 }, k)
      else some ({ t with pc := PC.idle }, k)
    | PC.b171 => some ({ t with pc := PC.idle }, wake_up_all h k)

/-- The system: the kernel state and the kernel threads; thread `i` is task
`i`. -/
structure Sys where
  k : Kernel
  th : List Thread

/-- A step of the system: a clock tick, or a step of one thread. -/
inductive Label where
  | tick
  | thread (i : Nat) (a : Action)
  deriving DecidableEq, Repr

def step (h : Host) (s : Sys) : Label → Option Sys
  | Label.tick => some { s with k := { s.k with jiffies := s.k.jiffies + 1 } }
  | Label.thread i a =>
    match s.th[i]? with
    | none => none
    | some t =>
      match next h i t s.k a with
      | none => none
      | some (t1, k1) => some { k := k1, th := s.th.set i t1 }

/-- The state after a sequence of steps, if each of them is enabled. -/
def steps (h : Host) : List Label → Sys → Option Sys
  | [], s => some s
  | l :: ls, s =>
    match step h s l with
    | none => none
    | some s1 => steps h ls s1

def idleThread : Thread :=
  { pc := PC.idle, mp := 0, expire_time := 0, time_left := 0, timer := 0, ret := 0 }

/-- The system right after `__cv_init`: `n` threads outside the module, no
mutex owned, every task running, and a record with the tag, no waiters, an
empty queue and no binding. -/
def Sys.init (h : Host) (n : Nat) : Sys :=
  { k := { cv := { cv_magic := h.CV_MAGIC, cv_event := [], cv_lock := false, cv_waiters := 0,
                   cv_mutex := none, cv_name := none, cv_name_size := 1 }
           owner := fun _ => none
           state := fun _ => TASK_RUNNING
           jiffies := 0
           live := [] }
    th := List.replicate n idleThread }

/-- The states some interleaving reaches from the initial state of some number
of threads. -/
def Reachable (h : Host) (s : Sys) : Prop :=
  ∃ n ls, steps h ls (Sys.init h n) = some s

/-- Task `i` has an entry linked in the wait queue. -/
def linked (k : Kernel) (i : Nat) : Prop := ∃ e ∈ k.cv.cv_event, e.task = i

/-- The number of threads between their `atomic_inc` and their
`atomic_dec`. -/
def countedThreads (s : Sys) : Nat := s.th.countP (fun t => t.pc.counted)

/-- The invariant of the interleavings: the waiter count is the number of
threads between their increment and their decrement; every thread between its
registration and its deregistration is linked in the wait queue or has been set
running; it is linked when the wake callback does not unlink; and every entry
of the queue is exclusive. -/
def Inv (h : Host) (s : Sys) : Prop :=
  s.k.cv.cv_waiters = countedThreads s
  ∧ (∀ i t, s.th[i]? = some t → t.pc.registered = true →
      linked s.k i ∨ s.k.state i = TASK_RUNNING)
  ∧ (h.autoremove = false → ∀ i t, s.th[i]? = some t → t.pc.registered = true → linked s.k i)
  ∧ (∀ e ∈ s.k.cv.cv_event, e.flags = WQ_FLAG_EXCLUSIVE)

/-- Thread `i` takes the mutex `m`, calls `__cv_wait` and runs lines 70 to 87:
it is registered and counted, has released the mutex and is about to call
`schedule`. -/
def waitToSchedule (i m : Nat) : List Label :=
  [Label.thread i (Action.mutex_enter m), Label.thread i (Action.cv_wait m),
   Label.thread i Action.run, Label.thread i Action.run, Label.thread i Action.run,
   Label.thread i Action.run, Label.thread i Action.run, Label.thread i Action.run]

/-- Thread `i` takes the mutex `m`, calls `__cv_wait` and runs lines 70 to 80:
it is registered and not counted yet. -/
def waitToIncrement (i m : Nat) : List Label :=
  [Label.thread i (Action.mutex_enter m), Label.thread i (Action.cv_wait m),
   Label.thread i Action.run, Label.thread i Action.run, Label.thread i Action.run,
   Label.thread i Action.run]

/-- Thread `j` calls `__cv_signal` and runs it to its end. -/
def signalOnce (j : Nat) : List Label :=
  [Label.thread j Action.cv_signal, Label.thread j Action.run, Label.thread j Action.run]

/-- Thread 0 takes the mutex 5, calls `__cv_timedwait` with deadline 50 and
runs to the sleep inside `schedule_timeout`; the clock ticks `ticks` times; the
thread runs the rest of the call. No other thread takes a step. -/
def timedWaitAlone (ticks : Nat) : List Label :=
  [Label.thread 0 (Action.mutex_enter 5), Label.thread 0 (Action.cv_timedwait 5 50),
   Label.thread 0 Action.run, Label.thread 0 Action.run, Label.thread 0 Action.run,
   Label.thread 0 Action.run, Label.thread 0 Action.run, Label.thread 0 Action.run,
   Label.thread 0 Action.run, Label.thread 0 Action.run]
  ++ List.replicate ticks Label.tick
  ++ [Label.thread 0 Action.run, Label.thread 0 Action.run, Label.thread 0 Action.run,
      Label.thread 0 Action.run]

/-- Thread `i` calls `__cv_wait` and runs lines 70 to 87. -/
def enterWait (i m : Nat) : List Label :=
  [Label.thread i (Action.cv_wait m), Label.thread i Action.run, Label.thread i Action.run,
   Label.thread i Action.run, Label.thread i Action.run, Label.thread i Action.run,
   Label.thread i Action.run]

/-- The positions of a wait after its check of the binding (lines 71 to 77,
111 to 117). -/
def PC.pastCheck : PC → Bool
  | PC.w78 | PC.w80 | PC.w82 | PC.w87 | PC.w88 | PC.w89 | PC.w91 | PC.w92 => true
  | PC.t118 | PC.t121 | PC.t125 | PC.t127 | PC.t132 | PC.t133 | PC.t133s | PC.t134
  | PC.t136 | PC.t137 => true
  | _ => false

/-! ## Part IV: lemmas -/

@[simp] theorem ASSERT_bind {α : Type} (n : Nat) (c : Bool) (f : Unit → Except Nat α) :
    (ASSERT n c >>= f) = if c then f () else Except.error n := by
  cases c <;> rfl

@[simp] theorem ASSERT_map {α : Type} (n : Nat) (c : Bool) (f : Unit → α) :
    (f <$> ASSERT n c) = if c then Except.ok (f ()) else Except.error n := by
  cases c <;> rfl

@[simp] theorem ok_bind {α β : Type} (a : α) (f : α → Except Nat β) :
    (Except.ok a >>= f) = f a := rfl

@[simp] theorem pure_eq_ok {α : Type} (a : α) : (pure a : Except Nat α) = Except.ok a := rfl

theorem timedwait_check_ok (h : Host) (cur : Nat) (r : Run) (m : Nat) (e : Int)
    (hmagic : r.k.cv.cv_magic = h.CV_MAGIC) (hown : r.k.owner m = some cur)
    (hbind : r.k.cv.cv_mutex = none ∨ r.k.cv.cv_mutex = some m) :
    __cv_timedwait_check h cur r m e
      = Except.ok (bound r m, wrapLong h.BITS_PER_LONG (e - r.k.jiffies)) := by
  rcases hbind with hb | hb <;>
    simp [__cv_timedwait_check, bound, Run.call, spin_lock, spin_unlock, mutex_owned,
      hmagic, hown, hb]

theorem wait_enter_ok (h : Host) (cur : Nat) (r : Run) (m : Nat)
    (hmagic : r.k.cv.cv_magic = h.CV_MAGIC) (hown : r.k.owner m = some cur)
    (hbind : r.k.cv.cv_mutex = none ∨ r.k.cv.cv_mutex = some m) :
    __cv_wait_enter h cur r m = Except.ok (__cv_timedwait_enter cur m (bound r m)) := by
  rcases hbind with hb | hb <;>
    simp [__cv_wait_enter, __cv_timedwait_enter, bound, Run.call, spin_lock, spin_unlock,
      mutex_owned, hmagic, hown, hb]

theorem bound_trace (r : Run) (m : Nat) : (bound r m).trace = r.trace ++ bindingEvents r m := by
  by_cases hb : r.k.cv.cv_mutex = none <;> simp [bound, bindingEvents, Run.call, hb]

theorem bound_hist (r : Run) (m : Nat)
    (hbind : r.k.cv.cv_mutex = none ∨ r.k.cv.cv_mutex = some m) :
    (bound r m).hist = r.hist ++ [spin_lock r.k]
      ++ (if r.k.cv.cv_mutex = none then
            [{ spin_lock r.k with cv := { (spin_lock r.k).cv with cv_mutex := some m } }]
          else [])
      ++ [{ spin_lock r.k with cv := { (spin_lock r.k).cv with cv_mutex := some m } },
          (bound r m).k] := by
  rcases hbind with hb | hb <;> simp [bound, Run.call, spin_lock, spin_unlock, hb]

theorem bound_k (r : Run) (m : Nat) :
    (bound r m).k = { r.k with cv := { r.k.cv with
      cv_lock := false, cv_mutex := some (r.k.cv.cv_mutex.getD m) } } := by
  cases hb : r.k.cv.cv_mutex <;> simp [bound, Run.call, spin_lock, spin_unlock, hb]

theorem two_pow_split (w : Nat) (hw : 0 < w) : (2 : Int) ^ w = 2 * 2 ^ (w - 1) := by
  obtain ⟨n, rfl⟩ : ∃ n, w = n + 1 := ⟨w - 1, by omega⟩
  simp [pow_succ, mul_comm]

theorem wrapLong_zero_width (x : Int) : wrapLong 0 x = -1 := by
  simp [wrapLong]

theorem wrapLong_lt (w : Nat) (hw : 0 < w) (x : Int) : wrapLong w x < 2 ^ (w - 1) := by
  have hpos : (0 : Int) < 2 ^ (w - 1) := by positivity
  have h2 := two_pow_split w hw
  have := Int.emod_lt_of_pos (x + 2 ^ (w - 1)) (show (0 : Int) < 2 ^ w by positivity)
  unfold wrapLong
  omega

theorem wrapLong_eq (w : Nat) (hw : 0 < w) (x y : Int) (hlo : -2 ^ (w - 1) ≤ y)
    (hhi : y < 2 ^ (w - 1)) (hxy : (2 : Int) ^ w ∣ x - y) : wrapLong w x = y := by
  obtain ⟨c, hc⟩ := hxy
  have h2 := two_pow_split w hw
  have hx : x + 2 ^ (w - 1) = (y + 2 ^ (w - 1)) + 2 ^ w * c := by linarith
  unfold wrapLong
  rw [hx, Int.add_mul_emod_self_left, Int.emod_eq_of_lt (by linarith) (by linarith)]
  ring

/-- Without wrap-around the difference in `clock_t` is the difference. -/
theorem wrapLong_id (w : Nat) (hw : 0 < w) (x : Int) (hlo : -2 ^ (w - 1) ≤ x)
    (hhi : x < 2 ^ (w - 1)) : wrapLong w x = x :=
  wrapLong_eq w hw x x hlo hhi ⟨0, by ring⟩

theorem wrapLong_dvd (w : Nat) (x : Int) : (2 : Int) ^ w ∣ x - wrapLong w x := by
  unfold wrapLong
  have := Int.emod_add_ediv (x + 2 ^ (w - 1)) (2 ^ w)
  exact ⟨(x + 2 ^ (w - 1)) / 2 ^ w, by linarith⟩

theorem timedwait_check_inv (h : Host) (cur : Nat) (r : Run) (m : Nat) (e : Int) (r1 : Run)
    (tl : Int) (hc : __cv_timedwait_check h cur r m e = Except.ok (r1, tl)) :
    r.k.cv.cv_magic = h.CV_MAGIC ∧ r.k.owner m = some cur
      ∧ (r.k.cv.cv_mutex = none ∨ r.k.cv.cv_mutex = some m)
      ∧ r1 = bound r m ∧ tl = wrapLong h.BITS_PER_LONG (e - r.k.jiffies) := by
  by_cases hmagic : r.k.cv.cv_magic = h.CV_MAGIC
  · by_cases hown : r.k.owner m = some cur
    · by_cases hbind : r.k.cv.cv_mutex = none ∨ r.k.cv.cv_mutex = some m
      · rw [timedwait_check_ok h cur r m e hmagic hown hbind] at hc
        simp only [Except.ok.injEq, Prod.mk.injEq] at hc
        exact ⟨hmagic, hown, hbind, hc.1.symm, hc.2.symm⟩
      · exfalso
        push_neg at hbind
        simp [__cv_timedwait_check, Run.call, spin_lock, mutex_owned, hmagic, hown,
          hbind.1, hbind.2] at hc
    · exfalso
      simp [__cv_timedwait_check, Run.call, spin_lock, mutex_owned, hmagic, hown] at hc
  · exfalso
    simp [__cv_timedwait_check, hmagic] at hc

theorem wait_enter_inv (h : Host) (cur : Nat) (r : Run) (m : Nat) (s : Run)
    (hc : __cv_wait_enter h cur r m = Except.ok s) :
    r.k.cv.cv_magic = h.CV_MAGIC ∧ r.k.owner m = some cur
      ∧ (r.k.cv.cv_mutex = none ∨ r.k.cv.cv_mutex = some m)
      ∧ s = __cv_timedwait_enter cur m (bound r m) := by
  by_cases hmagic : r.k.cv.cv_magic = h.CV_MAGIC
  · by_cases hown : r.k.owner m = some cur
    · by_cases hbind : r.k.cv.cv_mutex = none ∨ r.k.cv.cv_mutex = some m
      · rw [wait_enter_ok h cur r m hmagic hown hbind] at hc
        simp only [Except.ok.injEq] at hc
        exact ⟨hmagic, hown, hbind, hc.symm⟩
      · exfalso
        push_neg at hbind
        simp [__cv_wait_enter, Run.call, spin_lock, mutex_owned, hmagic, hown,
          hbind.1, hbind.2] at hc
    · exfalso
      simp [__cv_wait_enter, Run.call, spin_lock, mutex_owned, hmagic, hown] at hc
  · exfalso
    simp [__cv_wait_enter, hmagic] at hc

theorem error_bind {α β : Type} (n : Nat) (f : α → Except Nat β) :
    ((Except.error n : Except Nat α) >>= f) = Except.error n := rfl

theorem signal_inv (h : Host) (r r1 : Run) (hc : __cv_signal h r CvPtr.addr = Except.ok r1) :
    r.k.cv.cv_magic = h.CV_MAGIC
      ∧ r1 = if r.k.cv.cv_waiters > 0 then r.call Event.wake_up (wake_up h) else r := by
  by_cases hmagic : r.k.cv.cv_magic = h.CV_MAGIC
  · refine ⟨hmagic, ?_⟩
    by_cases hw : r.k.cv.cv_waiters > 0 <;> simp [__cv_signal, hmagic, hw] at hc ⊢ <;>
      exact hc.symm
  · simp [__cv_signal, hmagic] at hc

theorem broadcast_inv (h : Host) (r r1 : Run)
    (hc : __cv_broadcast h r CvPtr.addr = Except.ok r1) :
    r.k.cv.cv_magic = h.CV_MAGIC
      ∧ r1 = if r.k.cv.cv_waiters > 0 then r.call Event.wake_up_all (wake_up_all h) else r := by
  by_cases hmagic : r.k.cv.cv_magic = h.CV_MAGIC
  · refine ⟨hmagic, ?_⟩
    by_cases hw : r.k.cv.cv_waiters > 0 <;> simp [__cv_broadcast, hmagic, hw] at hc ⊢ <;>
      exact hc.symm
  · simp [__cv_broadcast, hmagic] at hc

theorem wake_up_cv_mutex (h : Host) (k : Kernel) :
    (wake_up h k).cv.cv_mutex = k.cv.cv_mutex := rfl

theorem wake_up_all_cv_mutex (h : Host) (k : Kernel) :
    (wake_up_all h k).cv.cv_mutex = k.cv.cv_mutex := rfl

theorem signal_binding (h : Host) (r r1 : Run) (hc : __cv_signal h r CvPtr.addr = Except.ok r1) :
    r1.k.cv.cv_mutex = r.k.cv.cv_mutex := by
  obtain ⟨-, rfl⟩ := signal_inv h r r1 hc
  by_cases hw : r.k.cv.cv_waiters > 0 <;> simp [hw, Run.call, wake_up_cv_mutex]

theorem broadcast_binding (h : Host) (r r1 : Run)
    (hc : __cv_broadcast h r CvPtr.addr = Except.ok r1) :
    r1.k.cv.cv_mutex = r.k.cv.cv_mutex := by
  obtain ⟨-, rfl⟩ := broadcast_inv h r r1 hc
  by_cases hw : r.k.cv.cv_waiters > 0 <;> simp [hw, Run.call, wake_up_all_cv_mutex]

theorem wait_rejects (h : Host) (env : Env) (cur : Nat) (r : Run) (m m2 : Nat)
    (hb : r.k.cv.cv_mutex = some m) (hne : m2 ≠ m) :
    ∃ n, __cv_wait h env cur r CvPtr.addr (some m2) = Except.error n := by
  cases hc : __cv_wait h env cur r CvPtr.addr (some m2) with
  | error n => exact ⟨n, rfl⟩
  | ok r1 =>
    exfalso
    simp only [__cv_wait] at hc
    cases hs : __cv_wait_enter h cur r m2 with
    | error n => rw [hs] at hc; simp [error_bind] at hc
    | ok s =>
      obtain ⟨-, -, hcompat, -⟩ := wait_enter_inv h cur r m2 s hs
      rw [hb] at hcompat
      simp at hcompat
      exact hne hcompat.symm

theorem timedwait_rejects (h : Host) (env : Env) (cur : Nat) (r : Run) (m m2 : Nat) (e : Int)
    (hb : r.k.cv.cv_mutex = some m) (hne : m2 ≠ m) :
    ∃ n, __cv_timedwait h env cur r CvPtr.addr (some m2) e = Except.error n := by
  cases hc : __cv_timedwait h env cur r CvPtr.addr (some m2) e with
  | error n => exact ⟨n, rfl⟩
  | ok p =>
    exfalso
    simp only [__cv_timedwait] at hc
    cases hs : __cv_timedwait_check h cur r m2 e with
    | error n => rw [hs] at hc; simp [error_bind] at hc
    | ok q =>
      obtain ⟨-, -, hcompat, -⟩ := timedwait_check_inv h cur r m2 e q.1 q.2 hs
      rw [hb] at hcompat
      simp at hcompat
      exact hne hcompat.symm

theorem wake_sublist (ar : Bool) (q : List wait_queue_t) :
    ∀ (nr : Int) (st : Nat → Nat), (wake_up_common ar q nr st).1.Sublist q := by
  induction q with
  | nil => intro nr st; simp [wake_up_common]
  | cons e q ih =>
    intro nr st
    simp only [wake_up_common]
    split
    · split
      · cases ar <;> simp
      · cases ar
        · simpa using ih _ _
        · simpa using (ih _ _).trans (List.sublist_cons_self e q)
    · simpa using ih nr st

theorem wake_keep (q : List wait_queue_t) :
    ∀ (nr : Int) (st : Nat → Nat), (wake_up_common false q nr st).1 = q := by
  induction q with
  | nil => intro nr st; simp [wake_up_common]
  | cons e q ih =>
    intro nr st
    simp only [wake_up_common]
    split
    · split
      · simp
      · simp [ih]
    · simp [ih]

theorem wake_mono (ar : Bool) (q : List wait_queue_t) :
    ∀ (nr : Int) (st : Nat → Nat) (j : Nat), st j = TASK_RUNNING →
      (wake_up_common ar q nr st).2.1 j = TASK_RUNNING := by
  induction q with
  | nil => intro nr st j hj; simpa [wake_up_common] using hj
  | cons e q ih =>
    intro nr st j hj
    have hupd : Function.update st e.task TASK_RUNNING j = TASK_RUNNING := by
      by_cases hje : j = e.task
      · subst hje; simp
      · simp [Function.update_noteq hje, hj]
    simp only [wake_up_common]
    split
    · split
      · exact hupd
      · exact ih _ _ j hupd
    · exact ih nr st j hj

/-- An entry of the queue is still linked after the walk, or its task is
running. -/
theorem wake_good (ar : Bool) (q : List wait_queue_t) :
    ∀ (nr : Int) (st : Nat → Nat) (e : wait_queue_t), e ∈ q →
      e ∈ (wake_up_common ar q nr st).1
        ∨ (wake_up_common ar q nr st).2.1 e.task = TASK_RUNNING := by
  induction q with
  | nil => intro nr st e he; simp at he
  | cons a q ih =>
    intro nr st e he
    simp only [wake_up_common]
    rcases List.mem_cons.mp he with rfl | hq
    · split
      · split
        · right; simp
        · right; exact wake_mono ar q _ _ _ (by simp)
      · left; simp
    · split
      · split
        · left; simp [hq]
        · rcases ih (if a.exclusive then nr - 1 else nr)
            (Function.update st a.task TASK_RUNNING) e hq with h1 | h1
          · left; simp [h1]
          · right; exact h1
      · rcases ih nr st e hq with h1 | h1
        · left; simp [h1]
        · right; exact h1

/-- A task the walk wakes had an entry in the queue and was not running. -/
theorem wake_woken_mem (ar : Bool) (q : List wait_queue_t) :
    ∀ (nr : Int) (st : Nat → Nat) (j : Nat), j ∈ (wake_up_common ar q nr st).2.2 →
      ∃ e ∈ q, e.task = j := by
  induction q with
  | nil => intro nr st j hj; simp [wake_up_common] at hj
  | cons a q ih =>
    intro nr st j hj
    simp only [wake_up_common] at hj
    split at hj
    · split at hj
      · simp only [List.mem_singleton] at hj
        exact ⟨a, by simp, hj.symm⟩
      · rcases List.mem_cons.mp hj with rfl | hq
        · exact ⟨a, by simp, rfl⟩
        · obtain ⟨e, he, hej⟩ := ih _ _ j hq
          exact ⟨e, by simp [he], hej⟩
    · obtain ⟨e, he, hej⟩ := ih _ _ j hj
      exact ⟨e, by simp [he], hej⟩

/-- A wake-one on a queue of exclusive entries wakes at most one task. -/
theorem wake_one_le (ar : Bool) (q : List wait_queue_t) (hex : ∀ e ∈ q, e.exclusive = true) :
    ∀ (st : Nat → Nat), (wake_up_common ar q 1 st).2.2.length ≤ 1 := by
  induction q with
  | nil => intro st; simp [wake_up_common]
  | cons a q ih =>
    intro st
    have ha : a.exclusive = true := hex a (by simp)
    simp only [wake_up_common, ha]
    split
    · simp
    · exact ih (fun e he => hex e (by simp [he])) st

/-- A wake-all leaves the task of every entry running, whatever its flags. -/
theorem wake_all_running (ar : Bool) (q : List wait_queue_t) :
    ∀ (nr : Int) (st : Nat → Nat), nr ≤ 0 → ∀ e ∈ q,
      (wake_up_common ar q nr st).2.1 e.task = TASK_RUNNING := by
  induction q with
  | nil => intro nr st _ e he; simp at he
  | cons a q ih =>
    intro nr st hnr e he
    have hne : (nr - 1 == 0) = false := by
      simp only [beq_eq_false_iff_ne, ne_eq]; omega
    simp only [wake_up_common, hne, Bool.and_false]
    rcases List.mem_cons.mp he with rfl | hq
    · split
      · exact wake_mono ar q _ _ _ (by simp)
      · rename_i hrun
        exact wake_mono ar q _ _ _ (by simpa using hrun)
    · split
      · exact ih _ _ (by split <;> omega) e hq
      · exact ih _ _ hnr e hq

theorem next_waiters (h : Host) (i : Nat) (t : Thread) (k : Kernel) (a : Action)
    (t1 : Thread) (k1 : Kernel) (hn : next h i t k a = some (t1, k1)) :
    k1.cv.cv_waiters
      = k.cv.cv_waiters + (if t1.pc.counted then 1 else 0) - (if t.pc.counted then 1 else 0) := by
  obtain ⟨pc, mp, et, tl, tm, rt⟩ := t
  cases a <;> [skip; skip; skip; skip; skip; skip; cases pc] <;>
    simp only [next] at hn <;>
    (try split at hn) <;>
    simp only [Option.some.injEq, Prod.mk.injEq, reduceCtorEq] at hn <;>
    (try obtain ⟨rfl, rfl⟩ := hn) <;>
    simp_all [PC.counted, mutex_acquire, mutex_exit, spin_lock, spin_unlock, atomic_inc,
      atomic_dec, prepare_to_wait_exclusive, finish_wait, wake_up, wake_up_all]

/-- What a step of thread `i` does to the wait queue and the task states. -/
theorem next_effect (h : Host) (i : Nat) (t : Thread) (k : Kernel) (a : Action)
    (t1 : Thread) (k1 : Kernel) (hn : next h i t k a = some (t1, k1)) :
    (k1.cv.cv_event = k.cv.cv_event ∧ k1.state = k.state
        ∧ t1.pc.registered = t.pc.registered)
    ∨ (k1.cv.cv_event = k.cv.cv_event ++ [⟨i, WQ_FLAG_EXCLUSIVE⟩]
        ∧ k1.state = Function.update k.state i TASK_UNINTERRUPTIBLE)
    ∨ (k1.cv.cv_event = k.cv.cv_event.filter (fun e => e.task != i)
        ∧ k1.state = Function.update k.state i TASK_RUNNING ∧ t1.pc.registered = false)
    ∨ (∃ nr, k1.cv.cv_event = (wake_up_common h.autoremove k.cv.cv_event nr k.state).1
        ∧ k1.state = (wake_up_common h.autoremove k.cv.cv_event nr k.state).2.1
        ∧ t1.pc.registered = false)
    ∨ (k1.cv.cv_event = k.cv.cv_event
        ∧ k1.state = Function.update k.state i TASK_RUNNING
        ∧ t1.pc.registered = t.pc.registered) := by
  obtain ⟨pc, mp, et, tl, tm, rt⟩ := t
  cases a <;> [skip; skip; skip; skip; skip; skip; cases pc] <;>
    simp only [next] at hn <;>
    (try split at hn) <;>
    simp only [Option.some.injEq, Prod.mk.injEq, reduceCtorEq] at hn <;>
    (try obtain ⟨rfl, rfl⟩ := hn) <;>
    first
    | (left; simp_all [PC.registered, mutex_acquire, mutex_exit, spin_lock, spin_unlock,
        atomic_inc, atomic_dec]; done)
    | (right; left; simp_all [prepare_to_wait_exclusive]; done)
    | (right; right; left; simp_all [finish_wait, PC.registered]; done)
    | (right; right; right; left; exact ⟨1, rfl, rfl, rfl⟩)
    | (right; right; right; left; exact ⟨0, rfl, rfl, rfl⟩)
    | (right; right; right; right; exact ⟨rfl, rfl, rfl⟩)

theorem countP_set {α : Type} (p : α → Bool) (x : α) :
    ∀ (l : List α) (i : Nat) (t : α), l[i]? = some t →
      ((l.set i x).countP p : Int)
        = l.countP p + (if p x then 1 else 0) - (if p t then 1 else 0) := by
  intro l
  induction l with
  | nil => intro i t hi; simp at hi
  | cons a l ih =>
    intro i t hi
    cases i with
    | zero =>
      simp only [List.getElem?_cons_zero, Option.some.injEq] at hi
      subst hi
      simp only [List.set_cons_zero, List.countP_cons]
      push_cast
      ring
    | succ i =>
      simp only [List.getElem?_cons_succ] at hi
      simp only [List.set_cons_succ, List.countP_cons]
      push_cast
      rw [ih i t hi]
      ring

theorem counted_registered (pc : PC) (hc : pc.counted = true) : pc.registered = true := by
  cases pc <;> simp_all [PC.counted, PC.registered]

theorem set_lookup (th : List Thread) (i j : Nat) (t t1 tj : Thread) (hi : th[i]? = some t)
    (hj : (th.set i t1)[j]? = some tj) :
    (j = i ∧ tj = t1) ∨ (j ≠ i ∧ th[j]? = some tj) := by
  rw [List.getElem?_set] at hj
  by_cases hij : i = j
  · subst hij
    have hlt : i < th.length := by
      by_contra hge
      rw [List.getElem?_eq_none (by omega)] at hi
      simp at hi
    simp only [if_true, hlt, Option.some.injEq] at hj
    exact Or.inl ⟨rfl, hj.symm⟩
  · simp only [hij, if_false] at hj
    exact Or.inr ⟨fun hji => hij hji.symm, hj⟩

/-- A step of thread `i` keeps every other task linked or running. -/
theorem next_frame (h : Host) (i : Nat) (t : Thread) (k : Kernel) (a : Action)
    (t1 : Thread) (k1 : Kernel) (hn : next h i t k a = some (t1, k1)) (j : Nat) (hji : j ≠ i)
    (hg : linked k j ∨ k.state j = TASK_RUNNING) :
    linked k1 j ∨ k1.state j = TASK_RUNNING := by
  rcases next_effect h i t k a t1 k1 hn with
    ⟨hq, hst, -⟩ | ⟨hq, hst⟩ | ⟨hq, hst, -⟩ | ⟨nr, hq, hst, -⟩ | ⟨hq, hst, -⟩
  · simpa [linked, hq, hst] using hg
  · rcases hg with ⟨e, he, hej⟩ | hr
    · exact Or.inl ⟨e, by simp [hq, he], hej⟩
    · exact Or.inr (by simp [hst, Function.update_noteq hji, hr])
  · rcases hg with ⟨e, he, hej⟩ | hr
    · exact Or.inl ⟨e, by simp [hq, he, hej, hji], hej⟩
    · exact Or.inr (by simp [hst, Function.update_noteq hji, hr])
  · rcases hg with ⟨e, he, hej⟩ | hr
    · rcases wake_good h.autoremove k.cv.cv_event nr k.state e he with h1 | h1
      · exact Or.inl ⟨e, by rw [hq]; exact h1, hej⟩
      · exact Or.inr (by rw [hst, ← hej]; exact h1)
    · exact Or.inr (by rw [hst]; exact wake_mono _ _ _ _ _ hr)
  · rcases hg with ⟨e, he, hej⟩ | hr
    · exact Or.inl ⟨e, by simp [hq, he], hej⟩
    · exact Or.inr (by simp [hst, Function.update_noteq hji, hr])

/-- The stepping thread itself is linked or running when it is registered
after the step. -/
theorem next_self (h : Host) (i : Nat) (t : Thread) (k : Kernel) (a : Action)
    (t1 : Thread) (k1 : Kernel) (hn : next h i t k a = some (t1, k1))
    (hg : t.pc.registered = true → linked k i ∨ k.state i = TASK_RUNNING)
    (hreg : t1.pc.registered = true) :
    linked k1 i ∨ k1.state i = TASK_RUNNING := by
  rcases next_effect h i t k a t1 k1 hn with
    ⟨hq, hst, hr⟩ | ⟨hq, hst⟩ | ⟨hq, hst, hr⟩ | ⟨nr, hq, hst, hr⟩ | ⟨hq, hst, hr⟩
  · simpa [linked, hq, hst] using hg (by rw [← hr]; exact hreg)
  · exact Or.inl ⟨⟨i, WQ_FLAG_EXCLUSIVE⟩, by simp [hq], rfl⟩
  · rw [hr] at hreg; cases hreg
  · rw [hr] at hreg; cases hreg
  · exact Or.inr (by simp [hst])

/-- Without unlinking wake-ups a step of thread `i` keeps every other task
linked. -/
theorem next_frame_linked (h : Host) (har : h.autoremove = false) (i : Nat) (t : Thread)
    (k : Kernel) (a : Action) (t1 : Thread) (k1 : Kernel)
    (hn : next h i t k a = some (t1, k1)) (j : Nat) (hji : j ≠ i) (hg : linked k j) :
    linked k1 j := by
  obtain ⟨e, he, hej⟩ := hg
  rcases next_effect h i t k a t1 k1 hn with
    ⟨hq, -, -⟩ | ⟨hq, -⟩ | ⟨hq, -, -⟩ | ⟨nr, hq, -, -⟩ | ⟨hq, -, -⟩
  · exact ⟨e, by simp [hq, he], hej⟩
  · exact ⟨e, by simp [hq, he], hej⟩
  · exact ⟨e, by simp [hq, he, hej, hji], hej⟩
  · exact ⟨e, by rw [hq, har, wake_keep]; exact he, hej⟩
  · exact ⟨e, by simp [hq, he], hej⟩

theorem next_self_linked (h : Host) (i : Nat) (t : Thread)
    (k : Kernel) (a : Action) (t1 : Thread) (k1 : Kernel)
    (hn : next h i t k a = some (t1, k1))
    (hg : t.pc.registered = true → linked k i) (hreg : t1.pc.registered = true) :
    linked k1 i := by
  rcases next_effect h i t k a t1 k1 hn with
    ⟨hq, -, hr⟩ | ⟨hq, -⟩ | ⟨-, -, hr⟩ | ⟨nr, -, -, hr⟩ | ⟨hq, -, hr⟩
  · simpa [linked, hq] using hg (by rw [← hr]; exact hreg)
  · exact ⟨⟨i, WQ_FLAG_EXCLUSIVE⟩, by simp [hq], rfl⟩
  · rw [hr] at hreg; cases hreg
  · rw [hr] at hreg; cases hreg
  · simpa [linked, hq] using hg (by rw [← hr]; exact hreg)

theorem next_flags (h : Host) (i : Nat) (t : Thread) (k : Kernel) (a : Action)
    (t1 : Thread) (k1 : Kernel) (hn : next h i t k a = some (t1, k1))
    (hx : ∀ e ∈ k.cv.cv_event, e.flags = WQ_FLAG_EXCLUSIVE) :
    ∀ e ∈ k1.cv.cv_event, e.flags = WQ_FLAG_EXCLUSIVE := by
  intro e he
  rcases next_effect h i t k a t1 k1 hn with
    ⟨hq, -, -⟩ | ⟨hq, -⟩ | ⟨hq, -, -⟩ | ⟨nr, hq, -, -⟩ | ⟨hq, -, -⟩
  · exact hx e (by rw [← hq]; exact he)
  · rw [hq, List.mem_append] at he
    rcases he with he | he
    · exact hx e he
    · simp only [List.mem_singleton] at he
      rw [he]
  · rw [hq] at he
    exact hx e (List.mem_of_mem_filter he)
  · rw [hq] at he
    exact hx e ((wake_sublist _ _ _ _).subset he)
  · exact hx e (by rw [← hq]; exact he)

theorem step_inv (h : Host) (s s1 : Sys) (l : Label) (hinv : Inv h s)
    (hs : step h s l = some s1) : Inv h s1 := by
  obtain ⟨hcnt, hgood, hlink, hflags⟩ := hinv
  cases l with
  | tick =>
    simp only [step, Option.some.injEq] at hs
    subst hs
    exact ⟨hcnt, hgood, hlink, hflags⟩
  | thread i a =>
    simp only [step] at hs
    cases hti : s.th[i]? with
    | none => simp [hti] at hs
    | some t =>
      simp only [hti] at hs
      cases hn : next h i t s.k a with
      | none => simp [hn] at hs
      | some p =>
        obtain ⟨t1, k1⟩ := p
        simp only [hn, Option.some.injEq] at hs
        subst hs
        refine ⟨?_, ?_, ?_, next_flags h i t s.k a t1 k1 hn hflags⟩
        · have h1 := next_waiters h i t s.k a t1 k1 hn
          have h2 := countP_set (fun t : Thread => t.pc.counted) t1 s.th i t hti
          simp only [countedThreads] at hcnt ⊢
          simp only at h2
          rw [h1, h2, hcnt]
        · intro j tj hj hreg
          rcases set_lookup s.th i j t t1 tj hti hj with ⟨rfl, rfl⟩ | ⟨hji, hj0⟩
          · exact next_self h j t s.k a tj k1 hn (hgood j t hti) hreg
          · exact next_frame h i t s.k a t1 k1 hn j hji (hgood j tj hj0 hreg)
        · intro har j tj hj hreg
          rcases set_lookup s.th i j t t1 tj hti hj with ⟨rfl, rfl⟩ | ⟨hji, hj0⟩
          · exact next_self_linked h j t s.k a tj k1 hn (hlink har j t hti) hreg
          · exact next_frame_linked h har i t s.k a t1 k1 hn j hji (hlink har j tj hj0 hreg)

theorem steps_inv (h : Host) (ls : List Label) :
    ∀ (s s1 : Sys), Inv h s → steps h ls s = some s1 → Inv h s1 := by
  induction ls with
  | nil =>
    intro s s1 hinv hs
    simp only [steps, Option.some.injEq] at hs
    subst hs
    exact hinv
  | cons l ls ih =>
    intro s s1 hinv hs
    simp only [steps] at hs
    cases h1 : step h s l with
    | none => simp [h1] at hs
    | some s2 =>
      simp only [h1] at hs
      exact ih s2 s1 (step_inv h s s2 l hinv h1) hs

theorem init_inv (h : Host) (n : Nat) : Inv h (Sys.init h n) := by
  have hidle : ∀ (i : Nat) (t : Thread), (Sys.init h n).th[i]? = some t →
      t.pc.registered = true → False := by
    intro i t hi hreg
    have hmem : t ∈ List.replicate n idleThread := List.getElem?_mem hi
    rw [List.eq_of_mem_replicate hmem] at hreg
    simp [idleThread, PC.registered] at hreg
  refine ⟨?_, fun i t hi hreg => (hidle i t hi hreg).elim,
    fun _ i t hi hreg => (hidle i t hi hreg).elim, by simp [Sys.init]⟩
  simp [Sys.init, countedThreads, List.countP_replicate, idleThread, PC.counted]

theorem reachable_inv (h : Host) (s : Sys) (hr : Reachable h s) : Inv h s := by
  obtain ⟨n, ls, hs⟩ := hr
  exact steps_inv h ls _ s (init_inv h n) hs

/-- A task whose state the walk changes is one of the tasks it wakes. -/
theorem wake_changed (ar : Bool) (q : List wait_queue_t) :
    ∀ (nr : Int) (st : Nat → Nat) (j : Nat), (wake_up_common ar q nr st).2.1 j ≠ st j →
      j ∈ (wake_up_common ar q nr st).2.2 := by
  induction q with
  | nil => intro nr st j hj; simp [wake_up_common] at hj
  | cons a q ih =>
    intro nr st j hj
    simp only [wake_up_common] at hj ⊢
    split
    · rename_i hsl
      simp only [hsl, if_true] at hj
      by_cases hja : j = a.task
      · split <;> simp [hja]
      · split
        · rename_i hstop
          simp [hstop, Function.update_noteq hja] at hj
        · rename_i hstop
          have hstop2 : (a.exclusive && nr - 1 == 0) = false := by simpa using hstop
          simp only [hstop2, Bool.false_eq_true, if_false] at hj
          have := ih (if a.exclusive then nr - 1 else nr)
            (Function.update st a.task TASK_RUNNING) j (by
              intro heq
              apply hj
              rw [heq, Function.update_noteq hja])
          simp [this]
    · rename_i hsl
      simp only [hsl] at hj
      exact ih nr st j hj

theorem reachable_counted_good (h : Host) (s : Sys) (hr : Reachable h s) (i : Nat) (t : Thread)
    (hi : s.th[i]? = some t) (hc : t.pc.counted = true) :
    linked s.k i ∨ s.k.state i = TASK_RUNNING :=
  (reachable_inv h s hr).2.1 i t hi (counted_registered t.pc hc)

theorem reachable_counted_linked (h : Host) (har : h.autoremove = false) (s : Sys)
    (hr : Reachable h s) (i : Nat) (t : Thread) (hi : s.th[i]? = some t)
    (hc : t.pc.counted = true) : linked s.k i :=
  (reachable_inv h s hr).2.2.1 har i t hi (counted_registered t.pc hc)

theorem quiet_keepsWaiters : quiet.keepsWaiters := fun _ => ⟨rfl, rfl⟩

theorem bindingEvents_count_inc (r : Run) (m : Nat) :
    (bindingEvents r m).count Event.atomic_inc = 0 := by
  by_cases hb : r.k.cv.cv_mutex = none <;> simp [bindingEvents, hb]

theorem bindingEvents_count_dec (r : Run) (m : Nat) :
    (bindingEvents r m).count Event.atomic_dec = 0 := by
  by_cases hb : r.k.cv.cv_mutex = none <;> simp [bindingEvents, hb]

theorem resume_waiters (env : Env) (cur m : Nat) (r : Run) (henv : env.keepsWaiters) :
    (__cv_wait_resume env cur m (__cv_timedwait_enter cur m (bound r m))).k.cv.cv_waiters
      = r.k.cv.cv_waiters := by
  simp [__cv_wait_resume, __cv_timedwait_enter, Run.call, finish_wait, atomic_dec,
    mutex_acquire, (henv _).1, (henv _).2, mutex_exit, atomic_inc, prepare_to_wait_exclusive,
    bound_k]

theorem timed_resume_waiters (env : Env) (cur m : Nat) (r : Run) (tl : Int)
    (henv : env.keepsWaiters) :
    (__cv_timedwait_resume env cur m
      (__cv_timedwait_enter cur m (bound r m)) tl).2.k.cv.cv_waiters = r.k.cv.cv_waiters := by
  simp [__cv_timedwait_resume, __cv_timedwait_enter, Run.call, finish_wait, atomic_dec,
    mutex_acquire, (henv _).1, (henv _).2, mutex_exit, atomic_inc, prepare_to_wait_exclusive,
    bound_k]

/-- A lone timed wait with a deadline 50 ticks ahead cannot leave
`schedule_timeout` after 49 ticks. -/
theorem timedWaitAlone_early : (steps linux (timedWaitAlone 49) (Sys.init linux 1)).isNone := by
  decide

/-- After 50 ticks it returns -1, and the waiter count is zero again. -/
theorem timedWaitAlone_expired :
    ∃ s, steps linux (timedWaitAlone 50) (Sys.init linux 1) = some s
      ∧ s.th = [{ pc := PC.idle, mp := 5, expire_time := 50, time_left := 0, timer := 50,
                  ret := -1 }]
      ∧ s.k.cv.cv_waiters = 0 ∧ s.k.cv.cv_event = [] ∧ s.k.owner 5 = some 0 :=
  ⟨_, rfl, by decide, by decide, by decide, by decide⟩

/-- The two semantics agree on the entry of `__cv_wait`: the steps of lines 67
to 87, taken by one thread without interruption, lead to the kernel state in
which the sequential function suspends. -/
theorem steps_wait_enter (h : Host) (s : Sys) (i m : Nat) (t : Thread) (r1 : Run)
    (hi : s.th[i]? = some t) (hidle : t.pc = PC.idle) (hlock : s.k.cv.cv_lock = false)
    (henter : __cv_wait_enter h i ⟨s.k, [], []⟩ m = Except.ok r1) :
    ∃ s1, steps h (enterWait i m) s = some s1 ∧ s1.k = r1.k
      ∧ s1.th[i]? = some { t with pc := PC.w88, mp := m } := by
  obtain ⟨hmagic, hown, hbind, rfl⟩ := wait_enter_inv h i ⟨s.k, [], []⟩ m r1 henter
  simp only at hmagic hown hbind
  obtain ⟨pc, mp, et, tl, tm, rt⟩ := t
  simp only at hidle
  subst hidle
  have hlt : i < s.th.length := by
    by_contra hge
    rw [List.getElem?_eq_none (by omega)] at hi
    simp at hi
  rcases hbind with hb | hb <;>
    simp [enterWait, steps, step, next, hi, hmagic, hlock, hown, hb, hlt, List.getElem?_set,
      mutex_owned, spin_lock, spin_unlock, __cv_timedwait_enter, Run.call, bound_k,
      prepare_to_wait_exclusive, atomic_inc, mutex_exit]

/-- Two threads sleep in `__cv_wait` on the same record and mutex and a third
runs one `__cv_signal`: the first waiter is set running, the second still
sleeps, and both are still counted. -/
theorem two_waiters_one_signal :
    ∃ s, steps linux (waitToSchedule 0 5 ++ waitToSchedule 1 5 ++ signalOnce 2)
        (Sys.init linux 3) = some s
      ∧ s.k.state 0 = TASK_RUNNING ∧ s.k.state 1 = TASK_UNINTERRUPTIBLE
      ∧ s.k.cv.cv_event = [⟨1, WQ_FLAG_EXCLUSIVE⟩] ∧ s.k.cv.cv_waiters = 2 :=
  ⟨_, rfl, rfl, rfl, by decide, by decide⟩

/-! ### The binding over the interleavings -/

/-- No step of any thread changes a binding that is set. -/
theorem next_binding (h : Host) (i : Nat) (t : Thread) (k : Kernel) (a : Action)
    (t1 : Thread) (k1 : Kernel) (hn : next h i t k a = some (t1, k1)) (m0 : Nat)
    (hb : k.cv.cv_mutex = some m0) : k1.cv.cv_mutex = some m0 := by
  obtain ⟨pc, mp, et, tl, tm, rt⟩ := t
  cases a <;> [skip; skip; skip; skip; skip; skip; cases pc] <;>
    simp only [next] at hn <;>
    (try split at hn) <;>
    simp only [Option.some.injEq, Prod.mk.injEq, reduceCtorEq] at hn <;>
    (try obtain ⟨rfl, rfl⟩ := hn) <;>
    simp_all [mutex_acquire, mutex_exit, spin_lock, spin_unlock, atomic_inc,
      atomic_dec, prepare_to_wait_exclusive, finish_wait, wake_up, wake_up_all]

/-- A thread that has passed the check of a wait finds the record bound to its
mutex. -/
theorem next_bound_self (h : Host) (i : Nat) (t : Thread) (k : Kernel) (a : Action)
    (t1 : Thread) (k1 : Kernel) (hn : next h i t k a = some (t1, k1))
    (hb : t.pc.pastCheck = true → k.cv.cv_mutex = some t.mp)
    (hp : t1.pc.pastCheck = true) : k1.cv.cv_mutex = some t1.mp := by
  obtain ⟨pc, mp, et, tl, tm, rt⟩ := t
  cases a <;> [skip; skip; skip; skip; skip; skip; cases pc] <;>
    simp only [next] at hn <;>
    (try split at hn) <;>
    simp only [Option.some.injEq, Prod.mk.injEq, reduceCtorEq] at hn <;>
    (try obtain ⟨rfl, rfl⟩ := hn) <;>
    simp_all [PC.pastCheck, mutex_acquire, mutex_exit, spin_lock, spin_unlock, atomic_inc,
      atomic_dec, prepare_to_wait_exclusive, finish_wait, wake_up, wake_up_all]

theorem step_binding (h : Host) (s s1 : Sys) (l : Label) (hs : step h s l = some s1)
    (m0 : Nat) (hb : s.k.cv.cv_mutex = some m0) : s1.k.cv.cv_mutex = some m0 := by
  cases l with
  | tick =>
    simp only [step, Option.some.injEq] at hs
    subst hs
    exact hb
  | thread i a =>
    simp only [step] at hs
    cases hti : s.th[i]? with
    | none => simp [hti] at hs
    | some t =>
      simp only [hti] at hs
      cases hn : next h i t s.k a with
      | none => simp [hn] at hs
      | some p =>
        obtain ⟨t1, k1⟩ := p
        simp only [hn, Option.some.injEq] at hs
        subst hs
        exact next_binding h i t s.k a t1 k1 hn m0 hb

theorem steps_binding (h : Host) (ls : List Label) :
    ∀ (s s1 : Sys), steps h ls s = some s1 → ∀ m0, s.k.cv.cv_mutex = some m0 →
      s1.k.cv.cv_mutex = some m0 := by
  induction ls with
  | nil =>
    intro s s1 hs m0 hb
    simp only [steps, Option.some.injEq] at hs
    subst hs
    exact hb
  | cons l ls ih =>
    intro s s1 hs m0 hb
    simp only [steps] at hs
    cases h1 : step h s l with
    | none => simp [h1] at hs
    | some s2 =>
      simp only [h1] at hs
      exact ih s2 s1 hs m0 (step_binding h s s2 l h1 m0 hb)

/-- Every thread that has passed the check of a wait holds the bound mutex as
its argument. -/
def BindInv (s : Sys) : Prop :=
  ∀ (i : Nat) (t : Thread), s.th[i]? = some t → t.pc.pastCheck = true →
    s.k.cv.cv_mutex = some t.mp

theorem step_bindInv (h : Host) (s s1 : Sys) (l : Label) (hinv : BindInv s)
    (hs : step h s l = some s1) : BindInv s1 := by
  cases l with
  | tick =>
    simp only [step, Option.some.injEq] at hs
    subst hs
    exact hinv
  | thread i a =>
    simp only [step] at hs
    cases hti : s.th[i]? with
    | none => simp [hti] at hs
    | some t =>
      simp only [hti] at hs
      cases hn : next h i t s.k a with
      | none => simp [hn] at hs
      | some p =>
        obtain ⟨t1, k1⟩ := p
        simp only [hn, Option.some.injEq] at hs
        subst hs
        intro j tj hj hp
        rcases set_lookup s.th i j t t1 tj hti hj with ⟨rfl, rfl⟩ | ⟨-, hj0⟩
        · exact next_bound_self h j t s.k a tj k1 hn (hinv j t hti) hp
        · exact next_binding h i t s.k a t1 k1 hn tj.mp (hinv j tj hj0 hp)

theorem steps_bindInv (h : Host) (ls : List Label) :
    ∀ (s s1 : Sys), BindInv s → steps h ls s = some s1 → BindInv s1 := by
  induction ls with
  | nil =>
    intro s s1 hinv hs
    simp only [steps, Option.some.injEq] at hs
    subst hs
    exact hinv
  | cons l ls ih =>
    intro s s1 hinv hs
    simp only [steps] at hs
    cases h1 : step h s l with
    | none => simp [h1] at hs
    | some s2 =>
      simp only [h1] at hs
      exact ih s2 s1 (step_bindInv h s s2 l hinv h1) hs

theorem init_bindInv (h : Host) (n : Nat) : BindInv (Sys.init h n) := by
  intro i t hi hp
  have hmem : t ∈ List.replicate n idleThread := List.getElem?_mem hi
  rw [List.eq_of_mem_replicate hmem] at hp
  simp [idleThread, PC.pastCheck] at hp

/-- At the check of the binding a wait with another mutex than the bound one
does not proceed: the assertion fails. -/
theorem next_reject (h : Host) (i : Nat) (t : Thread) (k : Kernel) (m0 : Nat)
    (hpc : t.pc = PC.w71 ∨ t.pc = PC.t111) (hb : k.cv.cv_mutex = some m0) (hne : t.mp ≠ m0) :
    next h i t k Action.run = none := by
  have hne2 : m0 ≠ t.mp := fun hh => hne hh.symm
  rcases hpc with hpc | hpc <;> simp [next, hpc, hb, hne2]

/-- At the check of the binding a wait with a mutex its caller owns, on a
record that is unbound or bound to that mutex, proceeds and leaves the record
bound to it, the spin lock still held. -/
theorem next_accept (h : Host) (i : Nat) (t : Thread) (k : Kernel)
    (hpc : t.pc = PC.w71 ∨ t.pc = PC.t111) (hown : k.owner t.mp = some i)
    (hb : k.cv.cv_mutex = none ∨ k.cv.cv_mutex = some t.mp) :
    ∃ t1 k1, next h i t k Action.run = some (t1, k1) ∧ k1.cv.cv_mutex = some t.mp
      ∧ k1.cv.cv_lock = k.cv.cv_lock ∧ t1.mp = t.mp ∧ t1.pc.pastCheck = true := by
  rcases hpc with hpc | hpc
  · refine ⟨{ t with pc := PC.w78 }, { k with cv := { k.cv with cv_mutex := some t.mp } },
      ?_, rfl, rfl, rfl, rfl⟩
    rcases hb with hb | hb <;> simp [next, hpc, hb, hown, mutex_owned]
  · refine ⟨{ t with pc := PC.t118 }, { k with cv := { k.cv with cv_mutex := some t.mp } },
      ?_, rfl, rfl, rfl, rfl⟩
    rcases hb with hb | hb <;> simp [next, hpc, hb, hown, mutex_owned]

theorem bindingEvents_count_store (r : Run) (m : Nat) :
    (bindingEvents r m).count (Event.cv_mutex_store m)
      = if r.k.cv.cv_mutex = none then 1 else 0 := by
  by_cases hb : r.k.cv.cv_mutex = none <;> simp [bindingEvents, hb]

theorem wait_error77 (h : Host) (env : Env) (cur : Nat) (r : Run) (m m2 : Nat)
    (hmagic : r.k.cv.cv_magic = h.CV_MAGIC) (hb : r.k.cv.cv_mutex = some m) (hne : m2 ≠ m)
    (hown : r.k.owner m2 = some cur) :
    __cv_wait h env cur r CvPtr.addr (some m2) = Except.error 77
      ∧ ∀ e, __cv_timedwait h env cur r CvPtr.addr (some m2) e = Except.error 117 := by
  have hne2 : m ≠ m2 := fun hh => hne hh.symm
  constructor
  · simp [__cv_wait, __cv_wait_enter, Run.call, spin_lock, mutex_owned, hmagic, hb, hown, hne2,
      error_bind]
  · intro e
    simp [__cv_timedwait, __cv_timedwait_check, Run.call, spin_lock, mutex_owned, hmagic, hb,
      hown, hne2, error_bind]

theorem wait_error71 (h : Host) (env : Env) (cur : Nat) (r : Run) (m2 : Nat)
    (hmagic : r.k.cv.cv_magic = h.CV_MAGIC) (hown : r.k.owner m2 ≠ some cur) :
    __cv_wait h env cur r CvPtr.addr (some m2) = Except.error 71
      ∧ ∀ e, __cv_timedwait h env cur r CvPtr.addr (some m2) e = Except.error 111 := by
  constructor
  · simp [__cv_wait, __cv_wait_enter, Run.call, spin_lock, mutex_owned, hmagic, hown,
      error_bind]
  · intro e
    simp [__cv_timedwait, __cv_timedwait_check, Run.call, spin_lock, mutex_owned, hmagic,
      hown, error_bind]

/-! ### The poison fill -/

/-- C1: for a live condition variable, a mutex owned by the caller and
compatible with the binding, and a deadline with `expire_time - jiffies <= 0`
(as the code computes it, in `clock_t`), `__cv_timedwait` returns -1 at once,
whatever the environment: its only events are those of the binding block (no
registration, no suspension, no mutex release), and the wait queue, the task
states, the mutex owners and the waiter count are as on entry. -/
theorem C1_timedwait_expired (h : Host) (env : Env) (cur : Nat) (r : Run) (m : Nat) (e : Int)
    (hmagic : r.k.cv.cv_magic = h.CV_MAGIC) (hown : r.k.owner m = some cur)
    (hbind : r.k.cv.cv_mutex = none ∨ r.k.cv.cv_mutex = some m)
    (hle : wrapLong h.BITS_PER_LONG (e - r.k.jiffies) ≤ 0) :
    ∃ r1, __cv_timedwait h env cur r CvPtr.addr (some m) e = Except.ok (-1, r1)
      ∧ r1.trace = r.trace ++ bindingEvents r m
      ∧ (∀ ev ∈ bindingEvents r m, ev = Event.spin_lock ∨ ev = Event.cv_mutex_store m
          ∨ ev = Event.cv_mutex_check m ∨ ev = Event.spin_unlock)
      ∧ r1.k.cv.cv_event = r.k.cv.cv_event
      ∧ r1.k.state = r.k.state
      ∧ r1.k.owner = r.k.owner
      ∧ r1.k.cv.cv_waiters = r.k.cv.cv_waiters := by
  refine ⟨bound r m, ?_, bound_trace r m, ?_, ?_, ?_, ?_, ?_⟩
  · simp [__cv_timedwait, timedwait_check_ok h cur r m e hmagic hown hbind, hle]
  · intro ev hev
    by_cases hb : r.k.cv.cv_mutex = none <;> simp [bindingEvents, hb] at hev <;> tauto
  all_goals simp [bound_k]

theorem C1_timedwait_expired_witness :
    ∃ r1, __cv_timedwait linux quiet 1 ⟨k0, [], []⟩ CvPtr.addr (some 5) 100 = Except.ok (-1, r1)
      ∧ r1.trace = [] ++ bindingEvents ⟨k0, [], []⟩ 5
      ∧ (∀ ev ∈ bindingEvents ⟨k0, [], []⟩ 5, ev = Event.spin_lock ∨ ev = Event.cv_mutex_store 5
          ∨ ev = Event.cv_mutex_check 5 ∨ ev = Event.spin_unlock)
      ∧ r1.k.cv.cv_event = []
      ∧ r1.k.state = k0.state
      ∧ r1.k.owner = k0.owner
      ∧ r1.k.cv.cv_waiters = 0 :=
  C1_timedwait_expired linux quiet 1 ⟨k0, [], []⟩ 5 100 rfl rfl (Or.inl rfl) (by decide)

/-- C2: whenever `__cv_timedwait` returns, its result is -1 or strictly
positive; when `expire_time - jiffies > 0` it is the value `schedule_timeout`
reports if that is positive and -1 otherwise; and when `schedule_timeout`
reports the rest of its timeout (the timeout less the ticks slept, not below
zero), a positive result is `expire_time - jiffies` at the time of waking. -/
theorem C2_timedwait_result (h : Host) (env : Env) (cur : Nat) (r : Run) (cvp : CvPtr)
    (mp : Option Nat) (e ret : Int) (r1 : Run)
    (hcall : __cv_timedwait h env cur r cvp mp e = Except.ok (ret, r1)) :
    (ret = -1 ∨ 0 < ret)
    ∧ (0 < wrapLong h.BITS_PER_LONG (e - r.k.jiffies) →
        ret = if 0 < env.remaining then env.remaining else -1)
    ∧ (∀ m now, mp = some m →
        now = (env.suspended (__cv_timedwait_enter cur m (bound r m)).k).jiffies →
        r.k.jiffies ≤ now →
        env.remaining
          = max 0 (wrapLong h.BITS_PER_LONG (e - r.k.jiffies) - (now - r.k.jiffies)) →
        0 < ret → ret = wrapLong h.BITS_PER_LONG (e - now)) := by
  cases cvp with
  | null => simp [__cv_timedwait] at hcall
  | addr =>
    cases mp with
    | none => simp [__cv_timedwait] at hcall
    | some m =>
      simp only [__cv_timedwait] at hcall
      cases hchk : __cv_timedwait_check h cur r m e with
      | error n => simp [hchk, bind, Except.bind] at hcall
      | ok p =>
        obtain ⟨r2, tl⟩ := p
        obtain ⟨-, -, -, -, htl⟩ := timedwait_check_inv h cur r m e r2 tl hchk
        rw [hchk] at hcall
        simp only [ok_bind, pure_eq_ok] at hcall
        by_cases hle : tl ≤ 0
        · simp only [hle, if_true, Except.ok.injEq, Prod.mk.injEq] at hcall
          obtain ⟨hret, -⟩ := hcall
          subst hret
          refine ⟨Or.inl rfl, ?_, ?_⟩
          · intro hpos; omega
          · intro m1 now _ _ _ _ hpos; omega
        · simp only [hle, if_false, __cv_timedwait_resume, Except.ok.injEq,
            Prod.mk.injEq] at hcall
          obtain ⟨hret, -⟩ := hcall
          refine ⟨?_, ?_, ?_⟩
          · by_cases hr : env.remaining > 0
            · right; rw [← hret]; simp [hr]
            · left; rw [← hret]; simp [hr]
          · intro _
            exact hret.symm
          · intro m1 now hm hnow hmono hrem hpos
            by_cases hr : 0 < env.remaining
            · have hret2 : ret = env.remaining := by rw [← hret]; simp [hr]
              have hw : 0 < h.BITS_PER_LONG := by
                rcases Nat.eq_zero_or_pos h.BITS_PER_LONG with h0 | h0
                · rw [htl, h0, wrapLong_zero_width] at hle; omega
                · exact h0
              have hlt := wrapLong_lt h.BITS_PER_LONG hw (e - r.k.jiffies)
              have hpow : (0 : Int) < 2 ^ (h.BITS_PER_LONG - 1) := by positivity
              have hval : env.remaining
                  = wrapLong h.BITS_PER_LONG (e - r.k.jiffies) - (now - r.k.jiffies) := by
                rw [hrem] at hr ⊢
                omega
              rw [hret2, hval]
              symm
              apply wrapLong_eq h.BITS_PER_LONG hw
              · rw [hval] at hr; omega
              · omega
              · obtain ⟨c, hc⟩ := wrapLong_dvd h.BITS_PER_LONG (e - r.k.jiffies)
                exact ⟨c, by linarith⟩
            · rw [← hret] at hpos; simp [hr] at hpos

theorem C2_timedwait_result_witness :
    ((30 : Int) = -1 ∨ (0 : Int) < 30)
    ∧ (0 < wrapLong linux.BITS_PER_LONG (250 - k0.jiffies) →
        (30 : Int) = if 0 < woken20.remaining then woken20.remaining else -1)
    ∧ (∀ m now, some 5 = some m →
        now = (woken20.suspended (__cv_timedwait_enter 1 m (bound ⟨k0, [], []⟩ m)).k).jiffies →
        k0.jiffies ≤ now →
        woken20.remaining
          = max 0 (wrapLong linux.BITS_PER_LONG (250 - k0.jiffies) - (now - k0.jiffies)) →
        (0 : Int) < 30 → (30 : Int) = wrapLong linux.BITS_PER_LONG (250 - now)) :=
  C2_timedwait_result linux woken20 1 ⟨k0, [], []⟩ CvPtr.addr (some 5) 250 30 _ rfl

/-- C4: an accepted `__cv_wait`, and an accepted `__cv_timedwait` with
`expire_time - jiffies > 0`, perform these effects in this order, each seen in
the kernel state it leaves (`k1` to `k10`, recorded in `hist`): the spin lock
is taken (`k1`); the binding is checked or set while it is held (`k2`); it is
released (`k3`); the caller is linked at the tail of the queue as an exclusive
entry and set uninterruptible, still owning the mutex and not yet counted
(`k4`); the count is incremented, the mutex still owned (`k5`); the mutex is
released (`k6`); the caller suspends in `k6`, with the spin lock free and the
mutex without owner (`schedule`, or `schedule_timeout` with exactly
`expire_time - jiffies`); the mutex is owned again (`k8`); the count is
decremented, the entries of the queue untouched (`k9`); the entry of the
caller is unlinked and the caller is running (`k10`). On the early return of
`__cv_timedwait` the state is `k3`, with the spin lock free. -/
theorem C4_wait_order (h : Host) (env : Env) (cur : Nat) (r : Run) (m : Nat) (e : Int)
    (hmagic : r.k.cv.cv_magic = h.CV_MAGIC) (hown : r.k.owner m = some cur)
    (hbind : r.k.cv.cv_mutex = none ∨ r.k.cv.cv_mutex = some m) :
    ∃ (k1 k2 k3 k4 k5 k6 : Kernel) (s : Run),
      __cv_wait_enter h cur r m = Except.ok s ∧ s.k = k6
      ∧ s.trace = r.trace ++ [Event.spin_lock]
          ++ (if r.k.cv.cv_mutex = none then [Event.cv_mutex_store m] else [])
          ++ [Event.cv_mutex_check m, Event.spin_unlock,
              Event.prepare_to_wait_exclusive TASK_UNINTERRUPTIBLE, Event.atomic_inc,
              Event.mutex_exit m]
      ∧ s.hist = r.hist ++ [k1] ++ (if r.k.cv.cv_mutex = none then [k2] else [])
          ++ [k2, k3, k4, k5, k6]
      ∧ (k1.cv.cv_lock = true ∧ k1.cv.cv_mutex = r.k.cv.cv_mutex)
      ∧ (k2.cv.cv_lock = true ∧ k2.cv.cv_mutex = some m)
      ∧ (k3.cv.cv_lock = false ∧ k3.cv.cv_mutex = some m
          ∧ k3.cv.cv_event = r.k.cv.cv_event ∧ k3.cv.cv_waiters = r.k.cv.cv_waiters
          ∧ k3.owner = r.k.owner ∧ k3.state = r.k.state)
      ∧ (k4.cv.cv_event = r.k.cv.cv_event ++ [⟨cur, WQ_FLAG_EXCLUSIVE⟩]
          ∧ k4.state cur = TASK_UNINTERRUPTIBLE
          ∧ k4.cv.cv_waiters = r.k.cv.cv_waiters ∧ k4.owner m = some cur)
      ∧ (k5.cv.cv_waiters = r.k.cv.cv_waiters + 1
          ∧ k5.cv.cv_event = r.k.cv.cv_event ++ [⟨cur, WQ_FLAG_EXCLUSIVE⟩]
          ∧ k5.owner m = some cur)
      ∧ (k6.owner m = none ∧ k6.cv.cv_lock = false
          ∧ k6.cv.cv_event = r.k.cv.cv_event ++ [⟨cur, WQ_FLAG_EXCLUSIVE⟩]
          ∧ k6.cv.cv_waiters = r.k.cv.cv_waiters + 1
          ∧ k6.state cur = TASK_UNINTERRUPTIBLE)
      ∧ (∃ (k8 k9 k10 : Kernel) (r1 : Run),
          __cv_wait h env cur r CvPtr.addr (some m) = Except.ok r1 ∧ r1.k = k10
          ∧ r1.trace = s.trace ++
              [Event.schedule, Event.mutex_enter m, Event.atomic_dec, Event.finish_wait]
          ∧ r1.hist = s.hist ++ [env.suspended k6, k8, k9, k10]
          ∧ (k8.owner m = some cur ∧ k8.cv = (env.contended (env.suspended k6)).cv)
          ∧ (k9.cv.cv_waiters = k8.cv.cv_waiters - 1 ∧ k9.cv.cv_event = k8.cv.cv_event
              ∧ k9.cv.cv_lock = k8.cv.cv_lock ∧ k9.owner m = some cur)
          ∧ ((∀ x, x ∈ k10.cv.cv_event ↔ x ∈ k9.cv.cv_event ∧ x.task ≠ cur)
              ∧ k10.state cur = TASK_RUNNING ∧ k10.cv.cv_waiters = k9.cv.cv_waiters
              ∧ k10.cv.cv_lock = k9.cv.cv_lock ∧ k10.owner m = some cur))
      ∧ (0 < wrapLong h.BITS_PER_LONG (e - r.k.jiffies) →
          ∃ (k8 k9 k10 : Kernel) (ret : Int) (r1 : Run),
            __cv_timedwait h env cur r CvPtr.addr (some m) e = Except.ok (ret, r1)
            ∧ r1.k = k10
            ∧ r1.trace = s.trace ++
                [Event.schedule_timeout (wrapLong h.BITS_PER_LONG (e - r.k.jiffies)),
                 Event.mutex_enter m, Event.atomic_dec, Event.finish_wait]
            ∧ r1.hist = s.hist ++ [env.suspended k6, k8, k9, k10]
            ∧ (k8.owner m = some cur ∧ k8.cv = (env.contended (env.suspended k6)).cv)
            ∧ (k9.cv.cv_waiters = k8.cv.cv_waiters - 1 ∧ k9.cv.cv_event = k8.cv.cv_event
                ∧ k9.cv.cv_lock = k8.cv.cv_lock ∧ k9.owner m = some cur)
            ∧ ((∀ x, x ∈ k10.cv.cv_event ↔ x ∈ k9.cv.cv_event ∧ x.task ≠ cur)
                ∧ k10.state cur = TASK_RUNNING ∧ k10.cv.cv_waiters = k9.cv.cv_waiters
                ∧ k10.cv.cv_lock = k9.cv.cv_lock ∧ k10.owner m = some cur))
      ∧ (wrapLong h.BITS_PER_LONG (e - r.k.jiffies) ≤ 0 →
          ∃ r1, __cv_timedwait h env cur r CvPtr.addr (some m) e = Except.ok (-1, r1)
            ∧ r1.k = k3
            ∧ r1.hist = r.hist ++ [k1] ++ (if r.k.cv.cv_mutex = none then [k2] else [])
                ++ [k2, k3]) := by
  have hw := wait_enter_ok h cur r m hmagic hown hbind
  have ht := timedwait_check_ok h cur r m e hmagic hown hbind
  refine ⟨spin_lock r.k,
    { spin_lock r.k with cv := { (spin_lock r.k).cv with cv_mutex := some m } },
    (bound r m).k,
    prepare_to_wait_exclusive (bound r m).k cur TASK_UNINTERRUPTIBLE,
    atomic_inc (prepare_to_wait_exclusive (bound r m).k cur TASK_UNINTERRUPTIBLE),
    (__cv_timedwait_enter cur m (bound r m)).k,
    __cv_timedwait_enter cur m (bound r m), hw, rfl, ?_, ?_, ?_, ?_, ?_, ?_, ?_, ?_, ?_, ?_, ?_⟩
  · simp [__cv_timedwait_enter, Run.call, bound_trace, bindingEvents]
  · simp only [__cv_timedwait_enter, Run.call, bound_hist r m hbind]
    simp
  · simp [spin_lock]
  · simp [spin_lock]
  · rcases hbind with hb | hb <;> simp [bound_k, hb]
  · simp [bound_k, prepare_to_wait_exclusive, hown]
  · simp [bound_k, prepare_to_wait_exclusive, atomic_inc, hown]
  · simp [__cv_timedwait_enter, Run.call, bound_k, prepare_to_wait_exclusive, atomic_inc,
      mutex_exit]
  · refine ⟨mutex_acquire (env.contended (env.suspended
        (__cv_timedwait_enter cur m (bound r m)).k)) cur m,
      atomic_dec (mutex_acquire (env.contended (env.suspended
        (__cv_timedwait_enter cur m (bound r m)).k)) cur m),
      (__cv_wait_resume env cur m (__cv_timedwait_enter cur m (bound r m))).k,
      __cv_wait_resume env cur m (__cv_timedwait_enter cur m (bound r m)),
      by simp [__cv_wait, hw], rfl, by simp [__cv_wait_resume, Run.call],
      by simp [__cv_wait_resume, Run.call], ?_, ?_, ?_⟩
    · simp [mutex_acquire]
    · simp [mutex_acquire, atomic_dec]
    · simp [__cv_wait_resume, Run.call, mutex_acquire, atomic_dec, finish_wait]
  · intro hpos
    refine ⟨mutex_acquire (env.contended (env.suspended
        (__cv_timedwait_enter cur m (bound r m)).k)) cur m,
      atomic_dec (mutex_acquire (env.contended (env.suspended
        (__cv_timedwait_enter cur m (bound r m)).k)) cur m),
      (__cv_timedwait_resume env cur m (__cv_timedwait_enter cur m (bound r m))
        (wrapLong h.BITS_PER_LONG (e - r.k.jiffies))).2.k,
      (__cv_timedwait_resume env cur m (__cv_timedwait_enter cur m (bound r m))
        (wrapLong h.BITS_PER_LONG (e - r.k.jiffies))).1,
      (__cv_timedwait_resume env cur m (__cv_timedwait_enter cur m (bound r m))
        (wrapLong h.BITS_PER_LONG (e - r.k.jiffies))).2,
      by simp [__cv_timedwait, ht, not_le.mpr hpos], rfl,
      by simp [__cv_timedwait_resume, Run.call],
      by simp [__cv_timedwait_resume, Run.call], ?_, ?_, ?_⟩
    · simp [mutex_acquire]
    · simp [mutex_acquire, atomic_dec]
    · simp [__cv_timedwait_resume, Run.call, mutex_acquire, atomic_dec, finish_wait]
  · intro hle
    exact ⟨bound r m, by simp [__cv_timedwait, ht, hle], rfl, bound_hist r m hbind⟩

theorem C4_wait_order_witness :
    ∃ (k1 k2 k3 k4 k5 k6 : Kernel) (s : Run),
      __cv_wait_enter linux 1 ⟨k0, [], []⟩ 5 = Except.ok s ∧ s.k = k6
      ∧ s.trace = ([] : List Event) ++ [Event.spin_lock]
          ++ (if k0.cv.cv_mutex = none then [Event.cv_mutex_store 5] else [])
          ++ [Event.cv_mutex_check 5, Event.spin_unlock,
              Event.prepare_to_wait_exclusive TASK_UNINTERRUPTIBLE, Event.atomic_inc,
              Event.mutex_exit 5]
      ∧ s.hist = ([] : List Kernel) ++ [k1] ++ (if k0.cv.cv_mutex = none then [k2] else [])
          ++ [k2, k3, k4, k5, k6]
      ∧ (k1.cv.cv_lock = true ∧ k1.cv.cv_mutex = k0.cv.cv_mutex)
      ∧ (k2.cv.cv_lock = true ∧ k2.cv.cv_mutex = some 5)
      ∧ (k3.cv.cv_lock = false ∧ k3.cv.cv_mutex = some 5
          ∧ k3.cv.cv_event = k0.cv.cv_event ∧ k3.cv.cv_waiters = k0.cv.cv_waiters
          ∧ k3.owner = k0.owner ∧ k3.state = k0.state)
      ∧ (k4.cv.cv_event = k0.cv.cv_event ++ [⟨1, WQ_FLAG_EXCLUSIVE⟩]
          ∧ k4.state 1 = TASK_UNINTERRUPTIBLE
          ∧ k4.cv.cv_waiters = k0.cv.cv_waiters ∧ k4.owner 5 = some 1)
      ∧ (k5.cv.cv_waiters = k0.cv.cv_waiters + 1
          ∧ k5.cv.cv_event = k0.cv.cv_event ++ [⟨1, WQ_FLAG_EXCLUSIVE⟩]
          ∧ k5.owner 5 = some 1)
      ∧ (k6.owner 5 = none ∧ k6.cv.cv_lock = false
          ∧ k6.cv.cv_event = k0.cv.cv_event ++ [⟨1, WQ_FLAG_EXCLUSIVE⟩]
          ∧ k6.cv.cv_waiters = k0.cv.cv_waiters + 1
          ∧ k6.state 1 = TASK_UNINTERRUPTIBLE)
      ∧ (∃ (k8 k9 k10 : Kernel) (r1 : Run),
          __cv_wait linux woken20 1 ⟨k0, [], []⟩ CvPtr.addr (some 5) = Except.ok r1 ∧ r1.k = k10
          ∧ r1.trace = s.trace ++
              [Event.schedule, Event.mutex_enter 5, Event.atomic_dec, Event.finish_wait]
          ∧ r1.hist = s.hist ++ [woken20.suspended k6, k8, k9, k10]
          ∧ (k8.owner 5 = some 1 ∧ k8.cv = (woken20.contended (woken20.suspended k6)).cv)
          ∧ (k9.cv.cv_waiters = k8.cv.cv_waiters - 1 ∧ k9.cv.cv_event = k8.cv.cv_event
              ∧ k9.cv.cv_lock = k8.cv.cv_lock ∧ k9.owner 5 = some 1)
          ∧ ((∀ x, x ∈ k10.cv.cv_event ↔ x ∈ k9.cv.cv_event ∧ x.task ≠ 1)
              ∧ k10.state 1 = TASK_RUNNING ∧ k10.cv.cv_waiters = k9.cv.cv_waiters
              ∧ k10.cv.cv_lock = k9.cv.cv_lock ∧ k10.owner 5 = some 1))
      ∧ (0 < wrapLong linux.BITS_PER_LONG (250 - k0.jiffies) →
          ∃ (k8 k9 k10 : Kernel) (ret : Int) (r1 : Run),
            __cv_timedwait linux woken20 1 ⟨k0, [], []⟩ CvPtr.addr (some 5) 250 = Except.ok (ret, r1)
            ∧ r1.k = k10
            ∧ r1.trace = s.trace ++
                [Event.schedule_timeout (wrapLong linux.BITS_PER_LONG (250 - k0.jiffies)),
                 Event.mutex_enter 5, Event.atomic_dec, Event.finish_wait]
            ∧ r1.hist = s.hist ++ [woken20.suspended k6, k8, k9, k10]
            ∧ (k8.owner 5 = some 1 ∧ k8.cv = (woken20.contended (woken20.suspended k6)).cv)
            ∧ (k9.cv.cv_waiters = k8.cv.cv_waiters - 1 ∧ k9.cv.cv_event = k8.cv.cv_event
                ∧ k9.cv.cv_lock = k8.cv.cv_lock ∧ k9.owner 5 = some 1)
            ∧ ((∀ x, x ∈ k10.cv.cv_event ↔ x ∈ k9.cv.cv_event ∧ x.task ≠ 1)
                ∧ k10.state 1 = TASK_RUNNING ∧ k10.cv.cv_waiters = k9.cv.cv_waiters
                ∧ k10.cv.cv_lock = k9.cv.cv_lock ∧ k10.owner 5 = some 1))
      ∧ (wrapLong linux.BITS_PER_LONG (250 - k0.jiffies) ≤ 0 →
          ∃ r1, __cv_timedwait linux woken20 1 ⟨k0, [], []⟩ CvPtr.addr (some 5) 250 = Except.ok (-1, r1)
            ∧ r1.k = k3
            ∧ r1.hist = ([] : List Kernel) ++ [k1] ++ (if k0.cv.cv_mutex = none then [k2] else [])
                ++ [k2, k3]) :=
  C4_wait_order linux woken20 1 ⟨k0, [], []⟩ 5 250 rfl rfl (Or.inl rfl)

/-- C3: a wait (`__cv_wait` or `__cv_timedwait`, also one that returns at once)
on a live record by the owner of its mutex is accepted when the record is
unbound or bound to that mutex, and when its check has passed the record is
bound to that mutex: the first such call stores it (one store, made while the
spin lock is held), a later one stores nothing, and after the check the call
writes the binding no more. On a record bound to one mutex a wait with another
fails an assertion (line 77 or 117 when the caller owns the other mutex, 71 or
111 when it does not). `__cv_signal` and `__cv_broadcast` leave the binding as
it is. Over the interleavings: no sequence of steps of any threads changes a
binding that is set, a wait with another mutex does not get past the check, a
wait with the bound mutex, or any on an unbound record, does and binds, and in
every state reached from `__cv_init` every wait past its check has the bound
mutex. -/
theorem C3_binding (h : Host) (env : Env) (cur : Nat) (r : Run) (m : Nat) (e : Int)
    (n : Nat) (s s1 : Sys) (ls0 ls : List Label)
    (hmagic : r.k.cv.cv_magic = h.CV_MAGIC) (hown : r.k.owner m = some cur)
    (hbind : r.k.cv.cv_mutex = none ∨ r.k.cv.cv_mutex = some m)
    (hs0 : steps h ls0 (Sys.init h n) = some s) (hs : steps h ls s = some s1) :
    (∃ (sw : Run) (kb : Kernel),
        __cv_wait_enter h cur r m = Except.ok sw ∧ sw.k.cv.cv_mutex = some m
        ∧ sw.trace.count (Event.cv_mutex_store m)
            = r.trace.count (Event.cv_mutex_store m)
              + (if r.k.cv.cv_mutex = none then 1 else 0)
        ∧ (r.hist ++ [kb]).IsPrefix sw.hist ∧ kb.cv.cv_lock = true
        ∧ (r.k.cv.cv_mutex = none →
            (r.hist ++ [kb, { kb with cv := { kb.cv with cv_mutex := some m } }]).IsPrefix
              sw.hist
            ∧ kb.cv.cv_mutex = none)
        ∧ (∃ r1, __cv_wait h env cur r CvPtr.addr (some m) = Except.ok r1
            ∧ r1.k.cv.cv_mutex = (env.contended (env.suspended sw.k)).cv.cv_mutex)
        ∧ (∃ ret r1, __cv_timedwait h env cur r CvPtr.addr (some m) e = Except.ok (ret, r1)
            ∧ r1.trace.count (Event.cv_mutex_store m)
                = r.trace.count (Event.cv_mutex_store m)
                  + (if r.k.cv.cv_mutex = none then 1 else 0)
            ∧ (wrapLong h.BITS_PER_LONG (e - r.k.jiffies) ≤ 0 → r1.k.cv.cv_mutex = some m)
            ∧ (0 < wrapLong h.BITS_PER_LONG (e - r.k.jiffies) →
                r1.k.cv.cv_mutex = (env.contended (env.suspended sw.k)).cv.cv_mutex)))
    ∧ (∀ (r2 : Run) (cur2 m2 : Nat), r2.k.cv.cv_magic = h.CV_MAGIC →
        r2.k.cv.cv_mutex = some m → m2 ≠ m →
        (r2.k.owner m2 = some cur2 →
          __cv_wait h env cur2 r2 CvPtr.addr (some m2) = Except.error 77
          ∧ ∀ e2, __cv_timedwait h env cur2 r2 CvPtr.addr (some m2) e2 = Except.error 117)
        ∧ (r2.k.owner m2 ≠ some cur2 →
          __cv_wait h env cur2 r2 CvPtr.addr (some m2) = Except.error 71
          ∧ ∀ e2, __cv_timedwait h env cur2 r2 CvPtr.addr (some m2) e2 = Except.error 111))
    ∧ (∀ (r2 r3 : Run),
        (__cv_signal h r2 CvPtr.addr = Except.ok r3
          ∨ __cv_broadcast h r2 CvPtr.addr = Except.ok r3) →
        r3.k.cv.cv_mutex = r2.k.cv.cv_mutex)
    ∧ (∀ m0, s.k.cv.cv_mutex = some m0 → s1.k.cv.cv_mutex = some m0)
    ∧ (∀ (i : Nat) (t : Thread) (k : Kernel) (m0 : Nat),
        (t.pc = PC.w71 ∨ t.pc = PC.t111) → k.cv.cv_mutex = some m0 → t.mp ≠ m0 →
        next h i t k Action.run = none)
    ∧ (∀ (i : Nat) (t : Thread) (k : Kernel),
        (t.pc = PC.w71 ∨ t.pc = PC.t111) → k.owner t.mp = some i →
        (k.cv.cv_mutex = none ∨ k.cv.cv_mutex = some t.mp) →
        ∃ t1 k1, next h i t k Action.run = some (t1, k1) ∧ k1.cv.cv_mutex = some t.mp
          ∧ k1.cv.cv_lock = k.cv.cv_lock ∧ t1.mp = t.mp ∧ t1.pc.pastCheck = true)
    ∧ (∀ (i : Nat) (t : Thread), s1.th[i]? = some t → t.pc.pastCheck = true →
        s1.k.cv.cv_mutex = some t.mp) := by
  have hw := wait_enter_ok h cur r m hmagic hown hbind
  have ht := timedwait_check_ok h cur r m e hmagic hown hbind
  have hbk : (bound r m).k.cv.cv_mutex = some m := by
    rcases hbind with hb | hb <;> simp [bound_k, hb]
  refine ⟨⟨__cv_timedwait_enter cur m (bound r m), spin_lock r.k, hw, ?_, ?_, ?_, ?_, ?_, ?_, ?_⟩,
    ?_, ?_, steps_binding h ls s s1 hs, ?_, ?_, ?_⟩
  · simp [__cv_timedwait_enter, Run.call, mutex_exit, atomic_inc, prepare_to_wait_exclusive, hbk]
  · simp [__cv_timedwait_enter, Run.call, bound_trace, bindingEvents_count_store]
  · simp only [__cv_timedwait_enter, Run.call, bound_hist r m hbind, List.append_assoc]
    exact ⟨_, List.append_assoc _ _ _⟩
  · simp [spin_lock]
  · intro hnone
    refine ⟨?_, by simp [spin_lock, hnone]⟩
    simp only [__cv_timedwait_enter, Run.call, bound_hist r m hbind, hnone, if_true,
      List.append_assoc]
    exact ⟨_, List.append_assoc _ _ _⟩
  · refine ⟨__cv_wait_resume env cur m (__cv_timedwait_enter cur m (bound r m)),
      by simp [__cv_wait, hw], ?_⟩
    simp [__cv_wait_resume, Run.call, finish_wait, atomic_dec, mutex_acquire]
  · by_cases hle : wrapLong h.BITS_PER_LONG (e - r.k.jiffies) ≤ 0
    · refine ⟨-1, bound r m, by simp [__cv_timedwait, ht, hle], ?_, fun _ => hbk,
        fun hpos => absurd hpos (not_lt.mpr hle)⟩
      simp [bound_trace, bindingEvents_count_store]
    · refine ⟨(__cv_timedwait_resume env cur m (__cv_timedwait_enter cur m (bound r m))
          (wrapLong h.BITS_PER_LONG (e - r.k.jiffies))).1,
        (__cv_timedwait_resume env cur m (__cv_timedwait_enter cur m (bound r m))
          (wrapLong h.BITS_PER_LONG (e - r.k.jiffies))).2,
        by simp [__cv_timedwait, ht, hle], ?_, fun hle2 => absurd hle2 hle, fun _ => ?_⟩
      · simp [__cv_timedwait_resume, __cv_timedwait_enter, Run.call, bound_trace,
          bindingEvents_count_store]
      · simp [__cv_timedwait_resume, Run.call, finish_wait, atomic_dec, mutex_acquire]
  · intro r2 cur2 m2 hmagic2 hb2 hne
    exact ⟨fun hown2 => wait_error77 h env cur2 r2 m m2 hmagic2 hb2 hne hown2,
      fun hown2 => wait_error71 h env cur2 r2 m2 hmagic2 hown2⟩
  · intro r2 r3 hor
    rcases hor with hsig | hsig
    · exact signal_binding h r2 r3 hsig
    · exact broadcast_binding h r2 r3 hsig
  · intro i t k m0 hpc hb hne
    exact next_reject h i t k m0 hpc hb hne
  · intro i t k hpc hown2 hb
    exact next_accept h i t k hpc hown2 hb
  · exact steps_bindInv h ls s s1 (steps_bindInv h ls0 _ s (init_bindInv h n) hs0) hs

theorem C3_binding_witness :
    k0.cv.cv_mutex = none
    ∧ ∃ s s1, steps linux (waitToSchedule 0 5) (Sys.init linux 2) = some s
    ∧ steps linux (signalOnce 1) s = some s1 ∧
    ((∃ (sw : Run) (kb : Kernel),
        __cv_wait_enter linux 1 ⟨k0, [], []⟩ 5 = Except.ok sw ∧ sw.k.cv.cv_mutex = some 5
        ∧ sw.trace.count (Event.cv_mutex_store 5)
            = ([] : List Event).count (Event.cv_mutex_store 5)
              + (if k0.cv.cv_mutex = none then 1 else 0)
        ∧ (([] : List Kernel) ++ [kb]).IsPrefix sw.hist ∧ kb.cv.cv_lock = true
        ∧ (k0.cv.cv_mutex = none →
            (([] : List Kernel) ++ [kb, { kb with cv := { kb.cv with cv_mutex := some 5 } }]).IsPrefix
              sw.hist
            ∧ kb.cv.cv_mutex = none)
        ∧ (∃ r1, __cv_wait linux woken20 1 ⟨k0, [], []⟩ CvPtr.addr (some 5) = Except.ok r1
            ∧ r1.k.cv.cv_mutex = (woken20.contended (woken20.suspended sw.k)).cv.cv_mutex)
        ∧ (∃ ret r1, __cv_timedwait linux woken20 1 ⟨k0, [], []⟩ CvPtr.addr (some 5) 250 = Except.ok (ret, r1)
            ∧ r1.trace.count (Event.cv_mutex_store 5)
                = ([] : List Event).count (Event.cv_mutex_store 5)
                  + (if k0.cv.cv_mutex = none then 1 else 0)
            ∧ (wrapLong linux.BITS_PER_LONG (250 - k0.jiffies) ≤ 0 → r1.k.cv.cv_mutex = some 5)
            ∧ (0 < wrapLong linux.BITS_PER_LONG (250 - k0.jiffies) →
                r1.k.cv.cv_mutex = (woken20.contended (woken20.suspended sw.k)).cv.cv_mutex)))
    ∧ (∀ (r2 : Run) (cur2 m2 : Nat), r2.k.cv.cv_magic = linux.CV_MAGIC →
        r2.k.cv.cv_mutex = some 5 → m2 ≠ 5 →
        (r2.k.owner m2 = some cur2 →
          __cv_wait linux woken20 cur2 r2 CvPtr.addr (some m2) = Except.error 77
          ∧ ∀ e2, __cv_timedwait linux woken20 cur2 r2 CvPtr.addr (some m2) e2 = Except.error 117)
        ∧ (r2.k.owner m2 ≠ some cur2 →
          __cv_wait linux woken20 cur2 r2 CvPtr.addr (some m2) = Except.error 71
          ∧ ∀ e2, __cv_timedwait linux woken20 cur2 r2 CvPtr.addr (some m2) e2 = Except.error 111))
    ∧ (∀ (r2 r3 : Run),
        (__cv_signal linux r2 CvPtr.addr = Except.ok r3
          ∨ __cv_broadcast linux r2 CvPtr.addr = Except.ok r3) →
        r3.k.cv.cv_mutex = r2.k.cv.cv_mutex)
    ∧ (∀ m0, s.k.cv.cv_mutex = some m0 → s1.k.cv.cv_mutex = some m0)
    ∧ (∀ (i : Nat) (t : Thread) (k : Kernel) (m0 : Nat),
        (t.pc = PC.w71 ∨ t.pc = PC.t111) → k.cv.cv_mutex = some m0 → t.mp ≠ m0 →
        next linux i t k Action.run = none)
    ∧ (∀ (i : Nat) (t : Thread) (k : Kernel),
        (t.pc = PC.w71 ∨ t.pc = PC.t111) → k.owner t.mp = some i →
        (k.cv.cv_mutex = none ∨ k.cv.cv_mutex = some t.mp) →
        ∃ t1 k1, next linux i t k Action.run = some (t1, k1) ∧ k1.cv.cv_mutex = some t.mp
          ∧ k1.cv.cv_lock = k.cv.cv_lock ∧ t1.mp = t.mp ∧ t1.pc.pastCheck = true)
    ∧ (∀ (i : Nat) (t : Thread), s1.th[i]? = some t → t.pc.pastCheck = true →
        s1.k.cv.cv_mutex = some t.mp)) :=
  ⟨rfl, _, _, rfl, rfl, C3_binding linux woken20 1 ⟨k0, [], []⟩ 5 250 2 _ _
    (waitToSchedule 0 5) (signalOnce 1) rfl rfl (Or.inl rfl) rfl rfl⟩

/-- C9: for every name that is not `NULL`, `__cv_init` with `CV_DEFAULT` and a
`NULL` argument returns a record with the tag set, no waiters, an empty queue,
no binding and a name buffer of `strlen(name) + 1` bytes when `kmem_alloc`
succeeded (no name otherwise); `__cv_destroy` right after it returns as well,
and it frees the buffer with `kmem_free` of that very size when there is one
and frees nothing otherwise, so that the live allocations are those before
`__cv_init`. -/
theorem C9_init_destroy (h : Host) (r : Run) (nm : List Nat) (preempt_count : Nat)
    (irqs_disabled alloc : Bool) :
    ∃ r1 r2,
      __cv_init h r CvPtr.addr (some nm) h.CV_DEFAULT none preempt_count irqs_disabled alloc
        = Except.ok r1
      ∧ __cv_destroy h r1 CvPtr.addr = Except.ok r2
      ∧ r1.k.cv = { cv_magic := h.CV_MAGIC, cv_event := [], cv_lock := false, cv_waiters := 0,
                    cv_mutex := none, cv_name := if alloc then some (nm ++ [0]) else none,
                    cv_name_size := nm.length + 1 }
      ∧ r1.k.live = (if alloc then [nm.length + 1] else []) ++ r.k.live
      ∧ r2.k.live = r.k.live
      ∧ r2.trace = r.trace ++
          [Event.init_waitqueue_head, Event.spin_lock_init, Event.atomic_set 0,
           Event.kmem_alloc (nm.length + 1)
             (if preempt_count != 0 || irqs_disabled then KM_NOSLEEP else KM_SLEEP)]
          ++ (if alloc then [Event.strcpy] else [])
          ++ [Event.spin_lock]
          ++ (if alloc then [Event.kmem_free (nm.length + 1)] else [])
          ++ [Event.memset h.CV_POISON, Event.spin_unlock] := by
  cases alloc <;>
    simp [__cv_init, __cv_destroy, Run.call, spin_lock, spin_unlock]

/-- C5, as stated, fails on a host whose wake callback unlinks the woken entry:
after thread 0 has gone to sleep in `__cv_wait` and thread 1 has run one
`__cv_signal`, the waiter count is 1 and the wait queue is empty. -/
theorem C5_counterexample :
    ∃ s, Reachable linux s ∧ 0 < s.k.cv.cv_waiters ∧ s.k.cv.cv_event = [] :=
  ⟨_, ⟨2, waitToSchedule 0 5 ++ signalOnce 1, rfl⟩, by decide, rfl⟩

/-- C5, amended: in every reachable state of every interleaving, each thread
between its `atomic_inc` and its `atomic_dec` is linked in the wait queue or
has already been set running; and on a host whose wake callback does not
unlink, each of them is linked, so that the wait queue is not empty when the
waiter count is positive. -/
theorem C5_counted_linked_or_running (h : Host) (s : Sys) (hr : Reachable h s) :
    (∀ i t, s.th[i]? = some t → t.pc.counted = true →
      linked s.k i ∨ s.k.state i = TASK_RUNNING)
    ∧ (h.autoremove = false →
        (∀ i t, s.th[i]? = some t → t.pc.counted = true → linked s.k i)
        ∧ (0 < s.k.cv.cv_waiters → s.k.cv.cv_event ≠ [])) := by
  refine ⟨fun i t hi hc => reachable_counted_good h s hr i t hi hc, fun har => ⟨
    fun i t hi hc => reachable_counted_linked h har s hr i t hi hc, ?_⟩⟩
  intro hpos
  have hcnt := (reachable_inv h s hr).1
  rw [hcnt] at hpos
  have hpos2 : 0 < countedThreads s := by exact_mod_cast hpos
  obtain ⟨t, ht, hc⟩ := List.countP_pos_iff.mp hpos2
  obtain ⟨i, hi⟩ := List.mem_iff_getElem?.mp ht
  obtain ⟨e, he, -⟩ := reachable_counted_linked h har s hr i t hi hc
  exact List.ne_nil_of_mem he

theorem C5_counted_linked_or_running_witness :
    ∃ s, steps plain (waitToSchedule 0 5 ++ signalOnce 1) (Sys.init plain 2) = some s
      ∧ (∀ i t, s.th[i]? = some t → t.pc.counted = true →
          linked s.k i ∨ s.k.state i = TASK_RUNNING)
      ∧ (plain.autoremove = false →
          (∀ i t, s.th[i]? = some t → t.pc.counted = true → linked s.k i)
          ∧ (0 < s.k.cv.cv_waiters → s.k.cv.cv_event ≠ [])) :=
  ⟨_, rfl, C5_counted_linked_or_running plain _
    ⟨2, waitToSchedule 0 5 ++ signalOnce 1, rfl⟩⟩

/-- C6: on a live record `__cv_signal` calls `wake_up` once, and does nothing
else, when the waiter count is positive, and returns the state unchanged when
it is not; a `wake_up` on a queue of exclusive entries sets at most one task
running, that task has an entry in the queue, and no other task changes its
state; and in every reachable state of every interleaving all entries of the
queue are exclusive. -/
theorem C6_signal (h : Host) (r : Run) (hmagic : r.k.cv.cv_magic = h.CV_MAGIC) :
    (0 < r.k.cv.cv_waiters →
      __cv_signal h r CvPtr.addr
        = Except.ok { k := wake_up h r.k, trace := r.trace ++ [Event.wake_up],
                      hist := r.hist ++ [wake_up h r.k] })
    ∧ (r.k.cv.cv_waiters ≤ 0 → __cv_signal h r CvPtr.addr = Except.ok r)
    ∧ ((∀ e ∈ r.k.cv.cv_event, e.exclusive = true) →
        (wake_up_woken h r.k).length ≤ 1
        ∧ (∀ j ∈ wake_up_woken h r.k, linked r.k j)
        ∧ (∀ j, (wake_up h r.k).state j ≠ r.k.state j → j ∈ wake_up_woken h r.k))
    ∧ (∀ s, Reachable h s → ∀ e ∈ s.k.cv.cv_event, e.exclusive = true) := by
  refine ⟨?_, ?_, ?_, ?_⟩
  · intro hpos
    simp [__cv_signal, hmagic, hpos, Run.call]
  · intro hle
    simp [__cv_signal, hmagic, not_lt.mpr hle]
  · intro hex
    exact ⟨wake_one_le _ _ hex _, fun j hj => wake_woken_mem _ _ _ _ j hj,
      fun j hj => wake_changed _ _ _ _ j hj⟩
  · intro s hr e he
    have := (reachable_inv h s hr).2.2.2 e he
    simp [wait_queue_t.exclusive, this, WQ_FLAG_EXCLUSIVE]

theorem C6_signal_witness :
    (0 < kTwo.cv.cv_waiters →
      __cv_signal linux ⟨kTwo, [], []⟩ CvPtr.addr
        = Except.ok { k := wake_up linux kTwo, trace := [] ++ [Event.wake_up],
                      hist := [] ++ [wake_up linux kTwo] })
    ∧ (kTwo.cv.cv_waiters ≤ 0 → __cv_signal linux ⟨kTwo, [], []⟩ CvPtr.addr = Except.ok ⟨kTwo, [], []⟩)
    ∧ ((∀ e ∈ kTwo.cv.cv_event, e.exclusive = true) →
        (wake_up_woken linux kTwo).length ≤ 1
        ∧ (∀ j ∈ wake_up_woken linux kTwo, linked kTwo j)
        ∧ (∀ j, (wake_up linux kTwo).state j ≠ kTwo.state j → j ∈ wake_up_woken linux kTwo))
    ∧ (∀ s, Reachable linux s → ∀ e ∈ s.k.cv.cv_event, e.exclusive = true) :=
  C6_signal linux ⟨kTwo, [], []⟩ rfl

/-- C7, as stated, fails: thread 0 is registered in the wait queue by line 80 of
`__cv_wait` and has not reached the increment of line 82; the record is live,
the waiter count is 0, and `__cv_broadcast` returns without waking it. -/
theorem C7_counterexample :
    ∃ s, Reachable linux s ∧ s.k.cv.cv_magic = linux.CV_MAGIC
      ∧ (⟨0, WQ_FLAG_EXCLUSIVE⟩ : wait_queue_t) ∈ s.k.cv.cv_event
      ∧ s.k.state 0 = TASK_UNINTERRUPTIBLE
      ∧ ∃ r1, __cv_broadcast linux ⟨s.k, [], []⟩ CvPtr.addr = Except.ok r1
          ∧ r1.k.state 0 = TASK_UNINTERRUPTIBLE
          ∧ (⟨0, WQ_FLAG_EXCLUSIVE⟩ : wait_queue_t) ∈ r1.k.cv.cv_event :=
  ⟨_, ⟨2, waitToIncrement 0 5, rfl⟩, rfl, by decide, rfl, _, rfl, rfl, by decide⟩

/-- C7, amended: on a live record `__cv_broadcast` calls `wake_up_all` once when
the waiter count is positive, after which the task of every entry of the wait
queue is running, whatever the flags of the entry, and returns the state
unchanged when the count is not positive; in every reachable state of every
interleaving a `wake_up_all` leaves every thread between its increment and its
decrement running, and the waiter count is zero whenever no thread is between
its increment and its decrement. -/
theorem C7_broadcast (h : Host) (r : Run) (s : Sys) (hmagic : r.k.cv.cv_magic = h.CV_MAGIC)
    (hr : Reachable h s) :
    (0 < r.k.cv.cv_waiters →
      __cv_broadcast h r CvPtr.addr
        = Except.ok { k := wake_up_all h r.k, trace := r.trace ++ [Event.wake_up_all],
                      hist := r.hist ++ [wake_up_all h r.k] }
      ∧ ∀ e ∈ r.k.cv.cv_event, (wake_up_all h r.k).state e.task = TASK_RUNNING)
    ∧ (r.k.cv.cv_waiters ≤ 0 → __cv_broadcast h r CvPtr.addr = Except.ok r)
    ∧ (∀ i t, s.th[i]? = some t → t.pc.counted = true →
        (wake_up_all h s.k).state i = TASK_RUNNING)
    ∧ (countedThreads s = 0 → s.k.cv.cv_waiters = 0) := by
  refine ⟨?_, ?_, ?_, ?_⟩
  · intro hpos
    refine ⟨by simp [__cv_broadcast, hmagic, hpos, Run.call], ?_⟩
    intro e he
    exact wake_all_running _ _ 0 _ le_rfl e he
  · intro hle
    simp [__cv_broadcast, hmagic, not_lt.mpr hle]
  · intro i t hi hc
    rcases reachable_counted_good h s hr i t hi hc with ⟨e, he, rfl⟩ | hrun
    · exact wake_all_running _ _ 0 _ le_rfl e he
    · exact wake_mono _ _ _ _ _ hrun
  · intro hz
    rw [(reachable_inv h s hr).1, hz]
    rfl

theorem C7_broadcast_witness :
    ∃ s, steps linux (waitToSchedule 0 5) (Sys.init linux 2) = some s
    ∧ (0 < kTwo.cv.cv_waiters →
      __cv_broadcast linux ⟨kTwo, [], []⟩ CvPtr.addr
        = Except.ok { k := wake_up_all linux kTwo, trace := [] ++ [Event.wake_up_all],
                      hist := [] ++ [wake_up_all linux kTwo] }
      ∧ ∀ e ∈ kTwo.cv.cv_event, (wake_up_all linux kTwo).state e.task = TASK_RUNNING)
    ∧ (kTwo.cv.cv_waiters ≤ 0 →
        __cv_broadcast linux ⟨kTwo, [], []⟩ CvPtr.addr = Except.ok ⟨kTwo, [], []⟩)
    ∧ (∀ i t, s.th[i]? = some t → t.pc.counted = true →
        (wake_up_all linux s.k).state i = TASK_RUNNING)
    ∧ (countedThreads s = 0 → s.k.cv.cv_waiters = 0) :=
  ⟨_, rfl, C7_broadcast linux ⟨kTwo, [], []⟩ _ rfl ⟨2, waitToSchedule 0 5, rfl⟩⟩

/-- C10: an accepted `__cv_wait` or `__cv_timedwait`, run while the other
contexts leave the waiter count alone, returns with the waiter count it found,
having performed one `atomic_inc` and one `atomic_dec` (or neither, on the
early return of `__cv_timedwait`); `__cv_signal` and `__cv_broadcast` leave the
count as it is; in every reachable state of every interleaving started after
`__cv_init` the count is the number of threads between their increment and
their decrement, hence not negative; and a timed wait on a record without
waiters whose timeout elapses returns -1 and leaves the count at zero. -/
theorem C10_waiters_balanced (h : Host) (env : Env) (cur : Nat) (r : Run) (m : Nat) (e : Int)
    (s : Sys) (hmagic : r.k.cv.cv_magic = h.CV_MAGIC) (hown : r.k.owner m = some cur)
    (hbind : r.k.cv.cv_mutex = none ∨ r.k.cv.cv_mutex = some m) (henv : env.keepsWaiters)
    (hr : Reachable h s) :
    (∃ r1, __cv_wait h env cur r CvPtr.addr (some m) = Except.ok r1
      ∧ r1.k.cv.cv_waiters = r.k.cv.cv_waiters
      ∧ r1.trace.count Event.atomic_inc = r.trace.count Event.atomic_inc + 1
      ∧ r1.trace.count Event.atomic_dec = r.trace.count Event.atomic_dec + 1)
    ∧ (∃ ret r1, __cv_timedwait h env cur r CvPtr.addr (some m) e = Except.ok (ret, r1)
      ∧ r1.k.cv.cv_waiters = r.k.cv.cv_waiters
      ∧ ((r1.trace.count Event.atomic_inc = r.trace.count Event.atomic_inc + 1
          ∧ r1.trace.count Event.atomic_dec = r.trace.count Event.atomic_dec + 1)
        ∨ (r1.trace.count Event.atomic_inc = r.trace.count Event.atomic_inc
          ∧ r1.trace.count Event.atomic_dec = r.trace.count Event.atomic_dec))
      ∧ (r.k.cv.cv_waiters = 0 → env.remaining ≤ 0 → ret = -1 ∧ r1.k.cv.cv_waiters = 0))
    ∧ (∀ r1, (__cv_signal h r CvPtr.addr = Except.ok r1
          ∨ __cv_broadcast h r CvPtr.addr = Except.ok r1) →
        r1.k.cv.cv_waiters = r.k.cv.cv_waiters)
    ∧ (Sys.init h s.th.length).k.cv.cv_waiters = 0
    ∧ s.k.cv.cv_waiters = countedThreads s
    ∧ 0 ≤ s.k.cv.cv_waiters := by
  refine ⟨?_, ?_, ?_, rfl, (reachable_inv h s hr).1, ?_⟩
  · refine ⟨__cv_wait_resume env cur m (__cv_timedwait_enter cur m (bound r m)), ?_,
      resume_waiters env cur m r henv, ?_, ?_⟩
    · simp [__cv_wait, wait_enter_ok h cur r m hmagic hown hbind]
    · simp [__cv_wait_resume, __cv_timedwait_enter, Run.call, bound_trace,
        bindingEvents_count_inc]
    · simp [__cv_wait_resume, __cv_timedwait_enter, Run.call, bound_trace,
        bindingEvents_count_dec]
  · by_cases hle : wrapLong h.BITS_PER_LONG (e - r.k.jiffies) ≤ 0
    · refine ⟨-1, bound r m, ?_, by simp [bound_k], Or.inr ⟨?_, ?_⟩, ?_⟩
      · simp [__cv_timedwait, timedwait_check_ok h cur r m e hmagic hown hbind, hle]
      · simp [bound_trace, bindingEvents_count_inc]
      · simp [bound_trace, bindingEvents_count_dec]
      · intro hz _
        exact ⟨rfl, by simp [bound_k, hz]⟩
    · refine ⟨(__cv_timedwait_resume env cur m (__cv_timedwait_enter cur m (bound r m))
          (wrapLong h.BITS_PER_LONG (e - r.k.jiffies))).1,
        (__cv_timedwait_resume env cur m (__cv_timedwait_enter cur m (bound r m))
          (wrapLong h.BITS_PER_LONG (e - r.k.jiffies))).2, ?_,
        timed_resume_waiters env cur m r
          (wrapLong h.BITS_PER_LONG (e - r.k.jiffies)) henv, Or.inl ⟨?_, ?_⟩, ?_⟩
      · simp only [__cv_timedwait, timedwait_check_ok h cur r m e hmagic hown hbind, ok_bind,
          hle, if_false, pure_eq_ok]
      · simp [__cv_timedwait_resume, __cv_timedwait_enter, Run.call, bound_trace,
          bindingEvents_count_inc]
      · simp [__cv_timedwait_resume, __cv_timedwait_enter, Run.call, bound_trace,
          bindingEvents_count_dec]
      · intro hz hrem
        refine ⟨by simp [__cv_timedwait_resume, not_lt.mpr hrem], ?_⟩
        rw [timed_resume_waiters env cur m r _ henv, hz]
  · intro r1 hor
    rcases hor with hs | hs
    · obtain ⟨-, rfl⟩ := signal_inv h r r1 hs
      by_cases hw : r.k.cv.cv_waiters > 0 <;> simp [hw, Run.call, wake_up]
    · obtain ⟨-, rfl⟩ := broadcast_inv h r r1 hs
      by_cases hw : r.k.cv.cv_waiters > 0 <;> simp [hw, Run.call, wake_up_all]
  · rw [(reachable_inv h s hr).1]
    exact Int.natCast_nonneg _

theorem C10_waiters_balanced_witness :
    ∃ s, steps linux (timedWaitAlone 50) (Sys.init linux 1) = some s
    ∧ (∃ r1, __cv_wait linux quiet 1 ⟨k0, [], []⟩ CvPtr.addr (some 5) = Except.ok r1
      ∧ r1.k.cv.cv_waiters = k0.cv.cv_waiters
      ∧ r1.trace.count Event.atomic_inc = ([] : List Event).count Event.atomic_inc + 1
      ∧ r1.trace.count Event.atomic_dec = ([] : List Event).count Event.atomic_dec + 1)
    ∧ (∃ ret r1, __cv_timedwait linux quiet 1 ⟨k0, [], []⟩ CvPtr.addr (some 5) 250
          = Except.ok (ret, r1)
      ∧ r1.k.cv.cv_waiters = k0.cv.cv_waiters
      ∧ ((r1.trace.count Event.atomic_inc = ([] : List Event).count Event.atomic_inc + 1
          ∧ r1.trace.count Event.atomic_dec = ([] : List Event).count Event.atomic_dec + 1)
        ∨ (r1.trace.count Event.atomic_inc = ([] : List Event).count Event.atomic_inc
          ∧ r1.trace.count Event.atomic_dec = ([] : List Event).count Event.atomic_dec))
      ∧ (k0.cv.cv_waiters = 0 → quiet.remaining ≤ 0 → ret = -1 ∧ r1.k.cv.cv_waiters = 0))
    ∧ (∀ r1, (__cv_signal linux ⟨k0, [], []⟩ CvPtr.addr = Except.ok r1
          ∨ __cv_broadcast linux ⟨k0, [], []⟩ CvPtr.addr = Except.ok r1) →
        r1.k.cv.cv_waiters = k0.cv.cv_waiters)
    ∧ (Sys.init linux s.th.length).k.cv.cv_waiters = 0
    ∧ s.k.cv.cv_waiters = countedThreads s
    ∧ 0 ≤ s.k.cv.cv_waiters :=
  ⟨_, rfl, C10_waiters_balanced linux quiet 1 ⟨k0, [], []⟩ 5 250 _ rfl rfl (Or.inl rfl)
    quiet_keepsWaiters ⟨1, timedWaitAlone 50, rfl⟩⟩

end SplCondvar
